import Mathlib

/-!
# Compat component: status.dat / objects.cache export

A shallow embedding of `components/compat/compatcomponent.cpp`.

Conventions of the embedding.

* An output stream is modelled by the list of its newline-terminated lines:
  every statement of the source writes text that ends in `"\n"`, so a list
  element is exactly the text between two successive `"\n"`; the empty string
  is a blank line.  `render` turns the list back into the bytes of the file.
* `long` and `int` values are mathematical integers (`Int`).  The two `time_t`
  subtractions of `DumpServiceStatus` are taken in signed 64-bit arithmetic: a
  difference outside the range wraps modulo `2 ^ 64`, as the compiled code does.
* `time(NULL)` reads one clock value per run (`Env.now`).
* `std::map<string, vector<T>>` is an association list kept in ascending key
  order, as iteration over a `std::map` visits the keys in ascending order.
-/

namespace Compat

/-! ## Data model -/

/-- A `Dictionary`: key/value entries in iteration order.  The group loops of the
source ignore the keys and read the values. -/
abbrev Dictionary := List (String × String)

/-- The `Host` wrapper, with the answers of the queries the component makes. -/
structure Host where
  name : String
  alias_ : String
  parents : List String
  groups : Option Dictionary
  reachable : Bool
  up : Bool
  deriving Repr, DecidableEq

/-- The `CheckResult` wrapper. -/
structure CheckResult where
  output : String
  scheduleStart : Int
  scheduleEnd : Int
  executionStart : Int
  executionEnd : Int
  performanceDataRaw : String
  deriving Repr, DecidableEq

/-- The `Service` wrapper, with the answers of the queries the component makes. -/
structure Service where
  host : Host
  alias_ : String
  checkInterval : Int
  retryInterval : Int
  lastCheckResult : Option CheckResult
  state : Int
  reachable : Bool
  stateType : Int
  nextCheck : Int
  currentCheckAttempt : Int
  maxCheckAttempts : Int
  lastStateChange : Int
  lastHardStateChange : Int
  groups : Option Dictionary
  deriving Repr, DecidableEq

/-- A `HostGroup` or `ServiceGroup` configuration object. -/
structure Group where
  alias_ : String
  notesUrl : String
  actionUrl : String
  deriving Repr, DecidableEq

/-- The per-run readings of the process-wide collaborators: `time(NULL)`,
`IcingaApplication::GetStartTime()` and `CIB::GetTaskStatistics(window)`. -/
structure Env where
  now : Int
  startTime : Int
  taskStatistics : Int → Int

/-- The object store as the export reads it: the two populations in iteration
order, and the lookups behind `HostGroup::Exists/GetByName` and
`ServiceGroup::Exists/GetByName` (`none` when `Exists(name)` is false). -/
structure ObjectGraph where
  hosts : List Host
  services : List Service
  hostGroup : String → Option Group
  serviceGroup : String → Option Group

/-- Modelled from the spec: the `ServiceState` enumeration is declared in a header
that is not part of the sources at hand; the ordinals are OK = 0. -/
def StateOK : Int := 0

/-- Modelled from the spec: `ServiceState` ordinal WARNING = 1. -/
def StateWarning : Int := 1

/-- Modelled from the spec: `ServiceState` ordinal CRITICAL = 2. -/
def StateCritical : Int := 2

/-- Modelled from the spec: `ServiceState` ordinal UNKNOWN = 3. -/
def StateUnknown : Int := 3

/-- Modelled from the spec: the `DumpStringList` template is declared in a header
that is not part of the sources at hand; list-valued fields are written as a
comma-joined token list with no surrounding whitespace. -/
def DumpStringList (list : List String) : String :=
  String.intercalate "," list

/-- The bytes of a stream whose newline-terminated lines are `lines`. -/
def render (lines : List String) : String :=
  String.join (lines.map (fun l => l ++ "\n"))

/-! ## Hosts -/

/-- The `state` local of `DumpHostStatus`. -/
def hostState (host : Host) : Int :=
  if !host.reachable then 2
  else if !host.up then 1
  else 0

/-- The hoststatus block written by `DumpHostStatus`. -/
def DumpHostStatus (env : Env) (host : Host) : List String :=
  let state := hostState host
  [ "hoststatus \x7b",
    "\thost_name=" ++ host.name,
    "\thas_been_checked=1",
    "\tshould_be_scheduled=1",
    "\tcheck_execution_time=0",
    "\tcheck_latency=0",
    "\tcurrent_state=" ++ toString state,
    "\tstate_type=1",
    "\tlast_check=" ++ toString env.now,
    "\tnext_check=" ++ toString env.now,
    "\tcurrent_attempt=1",
    "\tmax_attempts=1",
    "\tactive_checks_enabled=1",
    "\tpassive_checks_enabled=1",
    "\tlast_update=" ++ toString env.now,
    "\t\x7d",
    "" ]

/-- The define host block written by `DumpHostObject`. -/
def DumpHostObject (host : Host) : List String :=
  [ "define host \x7b",
    "\thost_name\t" ++ host.name,
    "\talias\t" ++ host.alias_,
    "\tcheck_interval\t" ++ toString (1 : Int),
    "\tretry_interval\t" ++ toString (1 : Int),
    "\tmax_check_attempts\t" ++ toString (1 : Int),
    "\tactive_checks_enabled\t" ++ toString (1 : Int),
    "\tpassive_checks_enabled\t" ++ toString (1 : Int) ]
  ++ (if !host.parents.isEmpty then ["\tparents\t" ++ DumpStringList host.parents] else [])
  ++ [ "\t\x7d",
       "" ]

/-! ## Services -/

/-- The fixed text used for a service whose parents are unavailable. -/
def unreachableText : String := "One or more parent services are unavailable."

/-- The locals `output`, `perfdata`, `schedule_start`, `schedule_end`,
`execution_start`, `execution_end` of `DumpServiceStatus` after the
`HasLastCheckResult` branch. -/
structure CheckLocals where
  output : String
  perfdata : String
  scheduleStart : Int
  scheduleEnd : Int
  executionStart : Int
  executionEnd : Int
  deriving Repr, DecidableEq

/-- Lines 117-129 of `DumpServiceStatus`. -/
def checkLocals (service : Service) : CheckLocals :=
  match service.lastCheckResult with
  | some cr =>
    { output := cr.output, perfdata := cr.performanceDataRaw,
      scheduleStart := cr.scheduleStart, scheduleEnd := cr.scheduleEnd,
      executionStart := cr.executionStart, executionEnd := cr.executionEnd }
  | none =>
    { output := "", perfdata := "",
      scheduleStart := -1, scheduleEnd := -1,
      executionStart := -1, executionEnd := -1 }

/-- The value a signed 64-bit `time_t` holds for the integer `x`: `x` itself between
`-2 ^ 63` and `2 ^ 63 - 1`, else `x` wrapped modulo `2 ^ 64` into that range. -/
def wrap64 (x : Int) : Int :=
  (x + 9223372036854775808) % 18446744073709551616 - 9223372036854775808

/-- Whether the integer `x` is a value of a signed 64-bit `time_t`. -/
abbrev fits64 (x : Int) : Prop :=
  -9223372036854775808 ≤ x ∧ x < 9223372036854775808

/-- The `execution_time` local of `DumpServiceStatus`, a `time_t` difference. -/
def executionTime (service : Service) : Int :=
  wrap64 ((checkLocals service).executionEnd - (checkLocals service).executionStart)

/-- The `latency` local of `DumpServiceStatus`, a `time_t` difference of a `time_t`
difference and `execution_time`. -/
def latency (service : Service) : Int :=
  wrap64
    (wrap64 ((checkLocals service).scheduleEnd - (checkLocals service).scheduleStart)
      - executionTime service)

/-- The `state` local of `DumpServiceStatus` when it is written. -/
def serviceState (service : Service) : Int :=
  let state := service.state
  let state := if !service.reachable then StateCritical else state
  if state > StateUnknown then StateUnknown else state

/-- The `output` local of `DumpServiceStatus` when it is written. -/
def serviceOutput (service : Service) : String :=
  let output := (checkLocals service).output
  if !service.reachable then
    let text := unreachableText
    if output.isEmpty then text
    else text ++ " (" ++ output ++ ")"
  else output

/-- The servicestatus block written by `DumpServiceStatus`.  `fmtMinutes n` is
the text `operator<<` produces for the double `n / 60.0`. -/
def DumpServiceStatus (fmtMinutes : Int → String) (env : Env) (service : Service) :
    List String :=
  [ "servicestatus \x7b",
    "\thost_name=" ++ service.host.name,
    "\tservice_description=" ++ service.alias_,
    "\tcheck_interval=" ++ fmtMinutes service.checkInterval,
    "\tretry_interval=" ++ fmtMinutes service.retryInterval,
    "\thas_been_checked=" ++ toString (if service.lastCheckResult.isSome then (1 : Int) else 0),
    "\tshould_be_scheduled=1",
    "\tcheck_execution_time=" ++ toString (executionTime service),
    "\tcheck_latency=" ++ toString (latency service),
    "\tcurrent_state=" ++ toString (serviceState service),
    "\tstate_type=" ++ toString service.stateType,
    "\tplugin_output=" ++ serviceOutput service,
    "\tperformance_data=" ++ (checkLocals service).perfdata,
    "\tlast_check=" ++ toString (checkLocals service).scheduleEnd,
    "\tnext_check=" ++ toString service.nextCheck,
    "\tcurrent_attempt=" ++ toString service.currentCheckAttempt,
    "\tmax_attempts=" ++ toString service.maxCheckAttempts,
    "\tlast_state_change=" ++ toString service.lastStateChange,
    "\tlast_hard_state_change=" ++ toString service.lastHardStateChange,
    "\tlast_update=" ++ toString env.now,
    "\tactive_checks_enabled=1",
    "\tpassive_checks_enabled=1",
    "\t\x7d",
    "" ]

/-- The define service block written by `DumpServiceObject`. -/
def DumpServiceObject (fmtMinutes : Int → String) (service : Service) : List String :=
  [ "define service \x7b",
    "\thost_name\t" ++ service.host.name,
    "\tservice_description\t" ++ service.alias_,
    "\tcheck_command\tcheck_i2",
    "\tcheck_interval\t" ++ fmtMinutes service.checkInterval,
    "\tretry_interval\t" ++ fmtMinutes service.retryInterval,
    "\tmax_check_attempts\t" ++ toString (1 : Int),
    "\tactive_checks_enabled\t" ++ toString (1 : Int),
    "\tpassive_checks_enabled\t" ++ toString (1 : Int),
    "\t\x7d",
    "" ]

/-! ## Group aggregation -/

/-- The statement `m[k].push_back(v)` on a `std::map<string, vector<T>>`:
`operator[]` finds the entry of `k` or inserts an empty one at its place in key
order, `push_back` appends `v` to it.  Keys compare as `std::string` does,
lexicographically by character. -/
def pushBack {α : Type} (m : List (String × List α)) (k : String) (v : α) :
    List (String × List α) :=
  match m with
  | [] => [(k, [v])]
  | (k', vs) :: rest =>
    if k = k' then (k', vs ++ [v]) :: rest
    else if k.data < k'.data then (k, [v]) :: (k', vs) :: rest
    else (k', vs) :: pushBack rest k v

/-- The group names a `GetGroups()` dictionary lists: the values of its entries in
iteration order, none for a null dictionary. -/
def groupNames (dict : Option Dictionary) : List String :=
  match dict with
  | none => []
  | some d => d.map Prod.snd

/-- The inner loop of the two population loops: `if (dict)` and, for every entry
of the dictionary, `m[group].push_back(v)`. -/
def registerGroups {α : Type} (m : List (String × List α)) (dict : Option Dictionary)
    (v : α) : List (String × List α) :=
  match dict with
  | none => m
  | some d => d.foldl (fun acc entry => pushBack acc entry.2 v) m

/-- The `hostgroups` map after the host loop (lines 231-252). -/
def hostgroups (hosts : List Host) : List (String × List String) :=
  hosts.foldl (fun m host => registerGroups m host.groups host.name) []

/-- The `servicegroups` map after the service loop (lines 279-297). -/
def servicegroups (services : List Service) : List (String × List Service) :=
  services.foldl (fun m service => registerGroups m service.groups service) []

/-- The lines of the optional metadata of a group block. -/
def groupMetadata (found : Option Group) : List String :=
  match found with
  | some gr =>
    [ "\talias\t" ++ gr.alias_,
      "\tnotes_url\t" ++ gr.notesUrl,
      "\taction_url\t" ++ gr.actionUrl ]
  | none => []

/-- The define hostgroup block written for one entry of `hostgroups`
(lines 256-274). -/
def DumpHostGroup (hostGroup : String → Option Group) (hgt : String × List String) :
    List String :=
  let name := hgt.1
  let hosts := hgt.2
  [ "define hostgroup \x7b",
    "\thostgroup_name\t" ++ name ]
  ++ groupMetadata (hostGroup name)
  ++ [ "\tmembers\t" ++ DumpStringList hosts,
       "\x7d" ]

/-- The `sglist` vector built for one service group (lines 316-322). -/
def sglist (services : List Service) : List String :=
  services.flatMap (fun service => [service.host.name, service.alias_])

/-- The define servicegroup block written for one entry of `servicegroups`
(lines 301-327). -/
def DumpServiceGroup (serviceGroup : String → Option Group)
    (sgt : String × List Service) : List String :=
  let name := sgt.1
  let services := sgt.2
  [ "define servicegroup \x7b",
    "\tservicegroup_name\t" ++ name ]
  ++ groupMetadata (serviceGroup name)
  ++ [ "\tmembers\t" ++ DumpStringList (sglist services),
       "\x7d" ]

/-! ## The two documents -/

/-- The header, info and programstatus blocks of status.dat (lines 199-222). -/
def statusPreamble (env : Env) : List String :=
  [ "# Icinga status file",
    "# This file is auto-generated. Do not modify this file.",
    "",
    "info \x7b",
    "\tcreated=" ++ toString env.now,
    "\tversion=2.0",
    "\t\x7d",
    "",
    "programstatus \x7b",
    "\tdaemon_mode=1",
    "\tprogram_start=" ++ toString env.startTime,
    "\tactive_service_checks_enabled=1",
    "\tpassive_service_checks_enabled=1",
    "\tactive_host_checks_enabled=0",
    "\tpassive_host_checks_enabled=0",
    "\tcheck_service_freshness=0",
    "\tcheck_host_freshness=0",
    "\tenable_flap_detection=1",
    "\tenable_failure_prediction=0",
    "\tactive_scheduled_service_check_stats=" ++ toString (env.taskStatistics 60) ++ ","
      ++ toString (env.taskStatistics (5 * 60)) ++ ","
      ++ toString (env.taskStatistics (15 * 60)),
    "\t\x7d",
    "" ]

/-- The header of objects.cache (lines 227-229). -/
def objectPreamble : List String :=
  [ "# Icinga object cache file",
    "# This file is auto-generated. Do not modify this file.",
    "" ]

/-- The define hostgroup blocks, one per entry of `hostgroups`, in map order. -/
def hostgroupBlocks (g : ObjectGraph) : List (List String) :=
  (hostgroups g.hosts).map (DumpHostGroup g.hostGroup)

/-- The define servicegroup blocks, one per entry of `servicegroups`, in map order. -/
def servicegroupBlocks (g : ObjectGraph) : List (List String) :=
  (servicegroups g.services).map (DumpServiceGroup g.serviceGroup)

/-- Everything one run writes to `statusfp`. -/
def statusLines (fmtMinutes : Int → String) (env : Env) (g : ObjectGraph) : List String :=
  statusPreamble env
  ++ g.hosts.flatMap (DumpHostStatus env)
  ++ g.services.flatMap (DumpServiceStatus fmtMinutes env)

/-- Everything one run writes to `objectfp`. -/
def objectLines (fmtMinutes : Int → String) (g : ObjectGraph) : List String :=
  objectPreamble
  ++ g.hosts.flatMap DumpHostObject
  ++ (hostgroupBlocks g).flatten
  ++ g.services.flatMap (DumpServiceObject fmtMinutes)
  ++ (servicegroupBlocks g).flatten

/-! ## Files -/

/-- The directory the component writes to: the contents of each existing path. -/
abbrev FileSystem := String → Option String

/-- What the operating system does to one `ofstream`: whether `open` succeeds, and
how many characters the device takes before a write fails (`none`: all). -/
structure Fault where
  openOk : Bool
  capacity : Option Nat
  deriving Repr, DecidableEq

/-- The faults of one run, one per stream. -/
structure Faults where
  status : Fault
  object : Fault
  deriving Repr, DecidableEq

/-- The file system with `path` holding `text`. -/
def FileSystem.store (fs : FileSystem) (path text : String) : FileSystem :=
  fun p => if p = path then some text else fs p

/-- The part of `text` that reaches the file. -/
def Fault.accepted (f : Fault) (text : String) : String :=
  match f.capacity with
  | none => text
  | some n => String.mk (text.data.take n)

/-- The call `fp.open(path, ofstream::out | ofstream::trunc)`: on success the file
exists and is empty; on failure the stream is in a failed state and the file
system is as before. -/
def ofstreamOpen (fs : FileSystem) (path : String) (f : Fault) : FileSystem :=
  if f.openOk then fs.store path "" else fs

/-- The file system once all of `text`, sent to the stream with `<<`, has been
flushed by `fp.close()`.  A stream that failed to open ignores every write. -/
def ofstreamClose (fs : FileSystem) (path : String) (f : Fault) (text : String) :
    FileSystem :=
  if f.openOk then fs.store path (f.accepted text) else fs

/-- The library call `rename(from, to)`, whose result the source ignores: it fails
without effect when `from` does not exist, else `to` takes over the contents. -/
def rename (fs : FileSystem) (src dst : String) : FileSystem :=
  match fs src with
  | none => fs
  | some text => fun p => if p = dst then some text else if p = src then none else fs p

/-- One run of `StatusTimerHandler` on the file system. -/
def StatusTimerHandler (fmtMinutes : Int → String) (env : Env) (g : ObjectGraph)
    (faults : Faults) (fs : FileSystem) : FileSystem :=
  let fs := ofstreamOpen fs "status.dat.tmp" faults.status
  let fs := ofstreamOpen fs "objects.cache.tmp" faults.object
  let fs := ofstreamClose fs "status.dat.tmp" faults.status
    (render (statusLines fmtMinutes env g))
  let fs := rename fs "status.dat.tmp" "status.dat"
  let fs := ofstreamClose fs "objects.cache.tmp" faults.object
    (render (objectLines fmtMinutes g))
  rename fs "objects.cache.tmp" "objects.cache"

/-! ## Reading the aggregated maps -/

/-- The vector stored under `k` in a map, empty when `k` has no entry. -/
def members {α : Type} (m : List (String × List α)) (k : String) : List α :=
  match m with
  | [] => []
  | (k', vs) :: rest => if k = k' then vs else members rest k

/-- The invariant of a `std::map`: its entries are in strictly ascending key order. -/
def Ascending {α : Type} (m : List (String × List α)) : Prop :=
  m.Pairwise (fun a b => a.1.data < b.1.data)

/-! ## Sample objects -/

/-- A host with no parents that belongs to the group `linux`. -/
def sampleHost : Host :=
  { name := "h1", alias_ := "h1", parents := [], groups := some [("0", "linux")],
    reachable := true, up := true }

/-- A second host, child of `h1`, in the groups `web` and `linux`. -/
def sampleHost2 : Host :=
  { name := "h2", alias_ := "h2", parents := ["h1"],
    groups := some [("0", "web"), ("1", "linux")], reachable := true, up := true }

/-- A check result with output and distinct timestamps. -/
def sampleResult : CheckResult :=
  { output := "PING OK", scheduleStart := 100, scheduleEnd := 110,
    executionStart := 102, executionEnd := 105, performanceDataRaw := "rta=1ms" }

/-- The service `h1/ping`: never checked, CRITICAL, hard state, reachable. -/
def sampleService : Service :=
  { host := sampleHost, alias_ := "ping", checkInterval := 300, retryInterval := 60,
    lastCheckResult := none, state := 2, reachable := true, stateType := 1,
    nextCheck := 0, currentCheckAttempt := 1, maxCheckAttempts := 3,
    lastStateChange := 0, lastHardStateChange := 0, groups := some [("0", "net")] }

/-- The service `h2/http`: checked, and its parents are unavailable. -/
def sampleService2 : Service :=
  { host := sampleHost2, alias_ := "http", checkInterval := 300, retryInterval := 60,
    lastCheckResult := some sampleResult, state := 0, reachable := false, stateType := 1,
    nextCheck := 0, currentCheckAttempt := 1, maxCheckAttempts := 3,
    lastStateChange := 0, lastHardStateChange := 0,
    groups := some [("0", "net"), ("1", "web")] }

/-- A reachable service whose stored state is the integer -1. -/
def negativeService : Service :=
  { sampleService with state := -1 }

/-- A clock reading with no task statistics. -/
def sampleEnv : Env :=
  { now := 0, startTime := 0, taskStatistics := fun _ => 0 }

/-- The readings fifteen seconds later. -/
def laterEnv : Env :=
  { now := 15, startTime := 0, taskStatistics := fun _ => 0 }

/-- A formatting of minutes, exact on multiples of sixty seconds. -/
def sampleFmt : Int → String :=
  fun n => toString (n / 60)

/-- A store with two hosts and two services where only the service group `net`
is a configured object. -/
def sampleGraph : ObjectGraph :=
  { hosts := [sampleHost2, sampleHost], services := [sampleService, sampleService2],
    hostGroup := fun _ => none,
    serviceGroup := fun n => if n = "net" then some ⟨"Network", "n", "a"⟩ else none }

/-- A store with no hosts and no services. -/
def emptyGraph : ObjectGraph :=
  { hosts := [], services := [], hostGroup := fun _ => none, serviceGroup := fun _ => none }

/-- A run in which every open and every write succeeds. -/
def noFaults : Faults :=
  { status := { openOk := true, capacity := none },
    object := { openOk := true, capacity := none } }

/-- A run in which both temp files open and each device takes five characters
before the writes fail. -/
def writeFaults : Faults :=
  { status := { openOk := true, capacity := some 5 },
    object := { openOk := true, capacity := some 5 } }

/-- A directory that holds the two files committed by an earlier run. -/
def committedFiles : FileSystem :=
  fun p =>
    if p = "status.dat" then some "previous status"
    else if p = "objects.cache" then some "previous objects"
    else none

/-- The line prefixes of a servicestatus block, in order. -/
def serviceStatusKeys : List String :=
  [ "servicestatus \x7b",
    "\thost_name=",
    "\tservice_description=",
    "\tcheck_interval=",
    "\tretry_interval=",
    "\thas_been_checked=",
    "\tshould_be_scheduled=",
    "\tcheck_execution_time=",
    "\tcheck_latency=",
    "\tcurrent_state=",
    "\tstate_type=",
    "\tplugin_output=",
    "\tperformance_data=",
    "\tlast_check=",
    "\tnext_check=",
    "\tcurrent_attempt=",
    "\tmax_attempts=",
    "\tlast_state_change=",
    "\tlast_hard_state_change=",
    "\tlast_update=",
    "\tactive_checks_enabled=",
    "\tpassive_checks_enabled=",
    "\t\x7d",
    "" ]

/-! ## Shape of the lines -/

/-- Whether a line starts with a tab. -/
def tabIndented (line : String) : Bool :=
  line.data.head? == some '\t'


/-! ## Formatting of the interval fields

The source writes `service.GetCheckInterval() / 60.0` with `operator<<`: the
integer is converted to a double, divided by the double 60, and the quotient is
written with the default stream settings, which is the conversion `%g` with
precision 6.  A positive double is held here as a fraction of two naturals;
intervals are far from the subnormal and overflow ranges, which are not
modelled. -/

/-- The integer nearest to `a / b`, ties to the even integer (`b` positive). -/
def roundHalfEven (a b : Nat) : Nat :=
  let q := a / b
  let r := a % b
  if 2 * r < b then q
  else if b < 2 * r then q + 1
  else if q % 2 = 0 then q
  else q + 1

/-- The least `k` from the start value on with `b * 2 ^ 52 ≤ a * 2 ^ k`. -/
def scaleUp (a b : Nat) : Nat → Nat → Nat
  | 0, k => k
  | fuel + 1, k => if b * 2 ^ 52 ≤ a * 2 ^ k then k else scaleUp a b fuel (k + 1)

/-- The least `j` from the start value on with `a < b * 2 ^ (53 + j)`. -/
def scaleDown (a b : Nat) : Nat → Nat → Nat
  | 0, j => j
  | fuel + 1, j => if a < b * 2 ^ (53 + j) then j else scaleDown a b fuel (j + 1)

/-- The double nearest to the quotient `a / b`, as a fraction: zero for zero, else
the quotient is scaled by a power of two to a 53-bit significand, which is
rounded to the nearest integer, ties to even. -/
def nearestDouble (a b : Nat) : Nat × Nat :=
  if a = 0 then (0, 1)
  else if a < b * 2 ^ 53 then
    let k := scaleUp a b (53 + b) 0
    (roundHalfEven (a * 2 ^ k) b, 2 ^ k)
  else
    let j := scaleDown a b a 0
    (roundHalfEven a (b * 2 ^ j) * 2 ^ j, 1)

/-- The greatest `x` from the start value on with `q * 10 ^ x ≤ p`. -/
def decExpUp (p q : Nat) : Nat → Nat → Nat
  | 0, x => x
  | fuel + 1, x => if q * 10 ^ (x + 1) ≤ p then decExpUp p q fuel (x + 1) else x

/-- The least `y` from the start value on with `q ≤ p * 10 ^ y`. -/
def decExpDown (p q : Nat) : Nat → Nat → Nat
  | 0, y => y
  | fuel + 1, y => if q ≤ p * 10 ^ y then y else decExpDown p q fuel (y + 1)

/-- The positive fraction `p / q` rounded to six significant decimal digits, ties
to even: the digits `d` and the decimal exponent `x` of the first digit, for the
value `d * 10 ^ (x - 5)`. -/
def sixDigits (p q : Nat) : Nat × Int :=
  if q ≤ p then
    let x := decExpUp p q p 0
    let d := if x ≤ 5 then roundHalfEven (p * 10 ^ (5 - x)) q
             else roundHalfEven p (q * 10 ^ (x - 5))
    if d = 10 ^ 6 then (10 ^ 5, (x : Int) + 1) else (d, (x : Int))
  else
    let y := decExpDown p q q 1
    let d := roundHalfEven (p * 10 ^ (5 + y)) q
    if d = 10 ^ 6 then (10 ^ 5, -(y : Int) + 1) else (d, -(y : Int))

/-- The `k` lowest decimal digits of `n`, highest first. -/
def fracDigits (n : Nat) : Nat → List Char
  | 0 => []
  | k + 1 => Nat.digitChar (n / 10 ^ k % 10) :: fracDigits n k

/-- The digits without their trailing zeros. -/
def stripZeros (digits : List Char) : List Char :=
  (digits.reverse.dropWhile (fun c => c == '0')).reverse

/-- The digits of a fraction as written by `%g`: nothing when all are zero, else a
point and the digits without trailing zeros. -/
def fractionText (digits : List Char) : String :=
  if stripZeros digits = [] then "" else "." ++ String.mk (stripZeros digits)

/-- The fixed notation of `d * 10 ^ (x - 5)` for `-4 ≤ x ≤ 5`. -/
def fixedText (d : Nat) (x : Int) : String :=
  let decimals := (5 - x).toNat
  toString (d / 10 ^ decimals) ++ fractionText (fracDigits (d % 10 ^ decimals) decimals)

/-- The scientific notation of `d * 10 ^ (x - 5)`, the exponent with a sign and at
least two digits. -/
def sciText (d : Nat) (x : Int) : String :=
  toString (d / 10 ^ 5) ++ fractionText (fracDigits (d % 10 ^ 5) 5)
    ++ "e" ++ (if x < 0 then "-" else "+")
    ++ (if x.natAbs < 10 then "0" else "") ++ toString x.natAbs

/-- The conversion `%g` with precision 6 of the fraction `p / q`, not negative:
fixed notation when the decimal exponent `x` of the rounded value has
`-4 ≤ x < 6`, scientific notation otherwise. -/
def formatG6 (p q : Nat) : String :=
  if p = 0 then "0"
  else
    let dx := sixDigits p q
    if -4 ≤ dx.2 ∧ dx.2 < 6 then fixedText dx.1 dx.2 else sciText dx.1 dx.2

/-- The text `operator<<` writes for `n / 60.0`: `n` converted to a double, the
double nearest to the quotient of that by 60, and its `%g` conversion. -/
def formatMinutes (n : Int) : String :=
  let converted := nearestDouble n.natAbs 1
  let quotient := nearestDouble converted.1 (60 * converted.2)
  (if n < 0 then "-" else "") ++ formatG6 quotient.1 quotient.2

/-- A check result scheduled at time 0 whose execution window runs from -1 to the
largest `time_t`. -/
def overflowResult : CheckResult :=
  { output := "", scheduleStart := 0, scheduleEnd := 0,
    executionStart := -1, executionEnd := 9223372036854775807,
    performanceDataRaw := "" }

/-- The sample service with the check result `overflowResult`. -/
def overflowService : Service :=
  { sampleService with lastCheckResult := some overflowResult }

/-- The never-checked sample service with a check interval of 100 seconds. -/
def oddService : Service :=
  { sampleService with checkInterval := 100 }

/-! ## Service status: severity and output -/

/-- C1 (counterexample): a reachable service whose stored state is the integer -1
is written with `current_state=-1`, a value outside OK, WARNING, CRITICAL,
UNKNOWN. -/
theorem serviceState_negative_counterexample :
    (DumpServiceStatus sampleFmt sampleEnv negativeService).get? 9
        = some "\tcurrent_state=-1"
      ∧ serviceState negativeService
          ∉ [StateOK, StateWarning, StateCritical, StateUnknown] := by
  decide

/-- C1 (amended): the `current_state` line carries the clamped state, which is never
above UNKNOWN, and is one of OK, WARNING, CRITICAL, UNKNOWN whenever the service
is unreachable or its stored state is not negative. -/
theorem serviceState_clamped (fmtMinutes : Int → String) (env : Env) (service : Service) :
    (DumpServiceStatus fmtMinutes env service).get? 9
        = some ("\tcurrent_state=" ++ toString (serviceState service))
      ∧ serviceState service ≤ StateUnknown
      ∧ ((service.reachable = false ∨ 0 ≤ service.state) →
          serviceState service ∈ [StateOK, StateWarning, StateCritical, StateUnknown]) := by
  refine ⟨rfl, ?_, ?_⟩
  · unfold serviceState StateUnknown StateCritical
    cases service.reachable
    · simp
    · simp only [Bool.not_true, Bool.false_eq_true, if_false]
      split <;> omega
  · intro h
    unfold serviceState StateOK StateWarning StateUnknown StateCritical
    rcases h with h | h
    · simp [h]
    · cases service.reachable <;> simp
      split
      · omega
      · rcases (by omega : service.state = 0 ∨ service.state = 1 ∨ service.state = 2
            ∨ service.state = 3) with h0 | h0 | h0 | h0 <;> simp [h0]

/-- C1 (witness): the amended statement at the unreachable sample service. -/
theorem serviceState_clamped_witness :
    (sampleService2.reachable = false ∨ 0 ≤ sampleService2.state)
      ∧ serviceState sampleService2
          ∈ [StateOK, StateWarning, StateCritical, StateUnknown] :=
  ⟨by decide,
   (serviceState_clamped sampleFmt sampleEnv sampleService2).2.2 (by decide)⟩

/-- C2: for an unreachable service `current_state` is CRITICAL (2) whatever the stored
state, and `plugin_output` is the unreachable-parent phrase alone when the check
result has no output or is absent, else the phrase followed by the old output in
parentheses. -/
theorem unreachable_forces_critical (fmtMinutes : Int → String) (env : Env)
    (service : Service) (h : service.reachable = false) :
    (DumpServiceStatus fmtMinutes env service).get? 9 = some "\tcurrent_state=2"
      ∧ serviceState service = StateCritical
      ∧ (DumpServiceStatus fmtMinutes env service).get? 11
          = some ("\tplugin_output=" ++ serviceOutput service)
      ∧ (service.lastCheckResult = none →
          serviceOutput service = "One or more parent services are unavailable.")
      ∧ (∀ cr, service.lastCheckResult = some cr → cr.output = "" →
          serviceOutput service = "One or more parent services are unavailable.")
      ∧ (∀ cr, service.lastCheckResult = some cr → cr.output ≠ "" →
          serviceOutput service
            = "One or more parent services are unavailable." ++ " (" ++ cr.output ++ ")") := by
  have hs : serviceState service = StateCritical := by
    simp [serviceState, h, StateCritical, StateUnknown]
  refine ⟨?_, hs, rfl, ?_, ?_, ?_⟩
  · show some ("\tcurrent_state=" ++ toString (serviceState service)) = _
    rw [hs]; rfl
  · intro hn
    simp [serviceOutput, checkLocals, h, hn, unreachableText]
    rfl
  · intro cr hc ho
    simp [serviceOutput, checkLocals, h, hc, ho, unreachableText]
    rfl
  · intro cr hc ho
    have : cr.output.isEmpty = false := by
      cases hb : cr.output.isEmpty
      · rfl
      · exact absurd ((String.isEmpty_iff _).1 hb) ho
    simp [serviceOutput, checkLocals, h, hc, this, unreachableText]

/-- C2 (witness): the unreachable sample service, whose last output is `PING OK`. -/
theorem unreachable_forces_critical_witness :
    sampleService2.reachable = false
      ∧ (DumpServiceStatus sampleFmt sampleEnv sampleService2).get? 9
          = some "\tcurrent_state=2"
      ∧ serviceOutput sampleService2
          = "One or more parent services are unavailable. (PING OK)" :=
  ⟨rfl,
   (unreachable_forces_critical sampleFmt sampleEnv sampleService2 rfl).1,
   (unreachable_forces_critical sampleFmt sampleEnv sampleService2 rfl).2.2.2.2.2
      sampleResult rfl (by decide)⟩

/-! ## Host status -/

/-- A string that starts with `p` differs from `t` when their first `n` characters
differ and `p` has at least `n` characters. -/
theorem ne_append_of_take_ne (n : Nat) (p s t : String)
    (hn : n ≤ p.data.length) (h : t.data.take n ≠ p.data.take n) : t ≠ p ++ s := by
  intro ht
  apply h
  rw [ht, String.data_append, List.take_append_of_le_length hn]

/-- C7 (counterexample): the hoststatus block of the sample host, which has no check
result, does not contain the line `has_been_checked=0`. -/
theorem hoststatus_has_been_checked_counterexample :
    "\thas_been_checked=0" ∉ DumpHostStatus sampleEnv sampleHost := by
  decide

/-- C7 (amended): for every host the third line of the hoststatus block is the fixed
line `has_been_checked=1`, and no line of the block is `has_been_checked=0`. -/
theorem hoststatus_has_been_checked_one (env : Env) (host : Host) :
    (DumpHostStatus env host).get? 2 = some "\thas_been_checked=1"
      ∧ "\thas_been_checked=0" ∉ DumpHostStatus env host := by
  refine ⟨rfl, ?_⟩
  simp only [DumpHostStatus, List.mem_cons, List.mem_singleton, List.not_mem_nil, not_or,
    or_false]
  refine ⟨by decide, ?_, by decide, by decide, by decide, by decide, ?_, by decide, ?_, ?_,
    by decide, by decide, by decide, by decide, ?_, by decide, by decide⟩ <;>
  exact ne_append_of_take_ne 3 _ _ _ (by decide) (by decide)

/-! ## Service status: timing -/

/-- A difference that is a `time_t` value is not changed by the wrap. -/
theorem wrap64_of_fits (x : Int) (h : fits64 x) : wrap64 x = x := by
  unfold fits64 at h
  unfold wrap64
  omega

/-- C8 (counterexample): for a check result with `execution_start = -1` and
`execution_end = 2 ^ 63 - 1` the block carries
`check_execution_time=-9223372036854775808`, while the difference of the two
timestamps as integers is `9223372036854775808`. -/
theorem checked_service_timing_counterexample :
    overflowService.lastCheckResult = some overflowResult
      ∧ (DumpServiceStatus sampleFmt sampleEnv overflowService).get? 7
          = some "\tcheck_execution_time=-9223372036854775808"
      ∧ overflowResult.executionEnd - overflowResult.executionStart = 9223372036854775808
      ∧ executionTime overflowService
          ≠ overflowResult.executionEnd - overflowResult.executionStart := by
  decide

/-- C8 (amended): for a service with a check result, `check_execution_time` and
`check_latency` are the `time_t` differences of lines 131-132, taken in signed
64-bit arithmetic, and `last_check` is `schedule_end`; when the three differences
are `time_t` values, the two fields are the differences as integers and latency
plus execution time is the length of the schedule window. -/
theorem checked_service_timing (fmtMinutes : Int → String) (env : Env) (service : Service)
    (cr : CheckResult) (h : service.lastCheckResult = some cr) :
    (DumpServiceStatus fmtMinutes env service).get? 7
        = some ("\tcheck_execution_time="
            ++ toString (wrap64 (cr.executionEnd - cr.executionStart)))
      ∧ (DumpServiceStatus fmtMinutes env service).get? 8
        = some ("\tcheck_latency=" ++ toString
            (wrap64 (wrap64 (cr.scheduleEnd - cr.scheduleStart)
              - wrap64 (cr.executionEnd - cr.executionStart))))
      ∧ (DumpServiceStatus fmtMinutes env service).get? 13
        = some ("\tlast_check=" ++ toString cr.scheduleEnd)
      ∧ (fits64 (cr.executionEnd - cr.executionStart) →
          fits64 (cr.scheduleEnd - cr.scheduleStart) →
          fits64 ((cr.scheduleEnd - cr.scheduleStart)
            - (cr.executionEnd - cr.executionStart)) →
          (DumpServiceStatus fmtMinutes env service).get? 7
              = some ("\tcheck_execution_time="
                  ++ toString (cr.executionEnd - cr.executionStart))
            ∧ (DumpServiceStatus fmtMinutes env service).get? 8
              = some ("\tcheck_latency=" ++ toString
                  ((cr.scheduleEnd - cr.scheduleStart)
                    - (cr.executionEnd - cr.executionStart)))
            ∧ executionTime service = cr.executionEnd - cr.executionStart
            ∧ latency service
                = (cr.scheduleEnd - cr.scheduleStart) - executionTime service
            ∧ latency service + executionTime service
                = cr.scheduleEnd - cr.scheduleStart) := by
  have he : executionTime service = wrap64 (cr.executionEnd - cr.executionStart) := by
    simp [executionTime, checkLocals, h]
  have hl : latency service
      = wrap64 (wrap64 (cr.scheduleEnd - cr.scheduleStart)
          - wrap64 (cr.executionEnd - cr.executionStart)) := by
    simp [latency, executionTime, checkLocals, h]
  have hc : (checkLocals service).scheduleEnd = cr.scheduleEnd := by
    simp [checkLocals, h]
  have h7 : (DumpServiceStatus fmtMinutes env service).get? 7
      = some ("\tcheck_execution_time="
          ++ toString (wrap64 (cr.executionEnd - cr.executionStart))) := by
    show some ("\tcheck_execution_time=" ++ toString (executionTime service)) = _
    rw [he]
  have h8 : (DumpServiceStatus fmtMinutes env service).get? 8
      = some ("\tcheck_latency=" ++ toString
          (wrap64 (wrap64 (cr.scheduleEnd - cr.scheduleStart)
            - wrap64 (cr.executionEnd - cr.executionStart)))) := by
    show some ("\tcheck_latency=" ++ toString (latency service)) = _
    rw [hl]
  refine ⟨h7, h8, ?_, ?_⟩
  · show some ("\tlast_check=" ++ toString (checkLocals service).scheduleEnd) = _
    rw [hc]
  · intro f1 f2 f3
    have w1 := wrap64_of_fits _ f1
    have w2 := wrap64_of_fits _ f2
    have w3 := wrap64_of_fits _ f3
    have he' : executionTime service = cr.executionEnd - cr.executionStart := by
      rw [he, w1]
    have hl' : latency service
        = (cr.scheduleEnd - cr.scheduleStart) - (cr.executionEnd - cr.executionStart) := by
      rw [hl, w1, w2, w3]
    refine ⟨?_, ?_, he', ?_, ?_⟩
    · rw [h7, w1]
    · rw [h8, w1, w2, w3]
    · rw [hl', he']
    · rw [hl', he']; omega

/-- C8 (witness): the checked sample service ran for 3 seconds in a schedule window
of 10 seconds. -/
theorem checked_service_timing_witness :
    sampleService2.lastCheckResult = some sampleResult
      ∧ fits64 (sampleResult.executionEnd - sampleResult.executionStart)
      ∧ fits64 (sampleResult.scheduleEnd - sampleResult.scheduleStart)
      ∧ fits64 ((sampleResult.scheduleEnd - sampleResult.scheduleStart)
          - (sampleResult.executionEnd - sampleResult.executionStart))
      ∧ (DumpServiceStatus sampleFmt sampleEnv sampleService2).get? 7
          = some "\tcheck_execution_time=3"
      ∧ (DumpServiceStatus sampleFmt sampleEnv sampleService2).get? 8
          = some "\tcheck_latency=7" :=
  ⟨rfl, by decide, by decide, by decide,
   ((checked_service_timing sampleFmt sampleEnv sampleService2 sampleResult rfl).2.2.2
      (by decide) (by decide) (by decide)).1,
   ((checked_service_timing sampleFmt sampleEnv sampleService2 sampleResult rfl).2.2.2
      (by decide) (by decide) (by decide)).2.1⟩

/-- C9: a service with no check result gets the full servicestatus block, line for
line the keys of `serviceStatusKeys`, which are also the keys of the block of any
checked service, with the placeholders `has_been_checked=0`,
`check_execution_time=0`, `check_latency=0`, `last_check=-1`, an empty
`performance_data` and, when reachable, an empty `plugin_output`. -/
theorem unchecked_service_block (fmtMinutes : Int → String) (env : Env) (service : Service)
    (h : service.lastCheckResult = none) :
    DumpServiceStatus fmtMinutes env service
        = List.zipWith (fun key value => key ++ value) serviceStatusKeys
            [ "", service.host.name, service.alias_,
              fmtMinutes service.checkInterval, fmtMinutes service.retryInterval,
              "0", "1", "0", "0",
              toString (serviceState service), toString service.stateType,
              (if service.reachable then "" else unreachableText),
              "", "-1",
              toString service.nextCheck, toString service.currentCheckAttempt,
              toString service.maxCheckAttempts, toString service.lastStateChange,
              toString service.lastHardStateChange, toString env.now,
              "1", "1", "", "" ]
      ∧ ∀ (checked : Service) (cr : CheckResult), checked.lastCheckResult = some cr →
          ∃ values : List String, values.length = serviceStatusKeys.length
            ∧ DumpServiceStatus fmtMinutes env checked
                = List.zipWith (fun key value => key ++ value) serviceStatusKeys values := by
  constructor
  · have h1 : executionTime service = 0 := by
      simp [executionTime, checkLocals, h, wrap64]
    have h2 : latency service = 0 := by
      simp [latency, executionTime, checkLocals, h, wrap64]
    have h3 : (checkLocals service).scheduleEnd = -1 := by simp [checkLocals, h]
    have h4 : (checkLocals service).perfdata = "" := by simp [checkLocals, h]
    have h5 : serviceOutput service = if service.reachable then "" else unreachableText := by
      cases hr : service.reachable
      · have he : "".isEmpty = true := rfl
        simp [serviceOutput, checkLocals, h, hr, he]
      · simp [serviceOutput, checkLocals, h, hr]
    simp only [DumpServiceStatus, h1, h2, h3, h4, h5, h, serviceStatusKeys]
    rfl
  · intro checked cr _
    refine ⟨[ "", checked.host.name, checked.alias_,
              fmtMinutes checked.checkInterval, fmtMinutes checked.retryInterval,
              toString (if checked.lastCheckResult.isSome then (1 : Int) else 0),
              "1", toString (executionTime checked), toString (latency checked),
              toString (serviceState checked), toString checked.stateType,
              serviceOutput checked, (checkLocals checked).perfdata,
              toString (checkLocals checked).scheduleEnd,
              toString checked.nextCheck, toString checked.currentCheckAttempt,
              toString checked.maxCheckAttempts, toString checked.lastStateChange,
              toString checked.lastHardStateChange, toString env.now,
              "1", "1", "", "" ], rfl, rfl⟩

/-- C9 (witness): the never-checked sample service. -/
theorem unchecked_service_block_witness :
    sampleService.lastCheckResult = none
      ∧ (DumpServiceStatus sampleFmt sampleEnv sampleService).get? 5
          = some "\thas_been_checked=0"
      ∧ (DumpServiceStatus sampleFmt sampleEnv sampleService).get? 13
          = some "\tlast_check=-1" :=
  ⟨rfl,
   by rw [(unchecked_service_block sampleFmt sampleEnv sampleService rfl).1]; decide,
   by rw [(unchecked_service_block sampleFmt sampleEnv sampleService rfl).1]; decide⟩

/-! ## The aggregated maps -/

/-- The keys after `m[k].push_back(v)` are `k` and the keys before. -/
theorem pushBack_keys {α : Type} (m : List (String × List α)) (k : String) (v : α)
    (k' : String) :
    k' ∈ (pushBack m k v).map Prod.fst ↔ k' = k ∨ k' ∈ m.map Prod.fst := by
  induction m with
  | nil => simp [pushBack]
  | cons e rest ih =>
    obtain ⟨ke, vs⟩ := e
    unfold pushBack
    split_ifs with h1 h2
    · subst h1; simp
    · simp
    · simp only [List.map_cons, List.mem_cons, ih]; tauto

/-- The statement `m[k].push_back(v)` keeps the keys in strictly ascending order. -/
theorem pushBack_ascending {α : Type} (m : List (String × List α)) (k : String) (v : α)
    (h : Ascending m) : Ascending (pushBack m k v) := by
  induction m with
  | nil => simp [pushBack, Ascending]
  | cons e rest ih =>
    obtain ⟨ke, vs⟩ := e
    have h' := List.pairwise_cons.1 h
    unfold pushBack
    split_ifs with h1 h2
    · exact List.pairwise_cons.2 ⟨h'.1, h'.2⟩
    · refine List.pairwise_cons.2 ⟨?_, h⟩
      intro a ha
      rcases List.mem_cons.1 ha with rfl | ha
      · exact h2
      · exact lt_trans h2 (h'.1 a ha)
    · refine List.pairwise_cons.2 ⟨?_, ih h'.2⟩
      intro a ha
      have hlt : ke.data < k.data := by
        rcases lt_trichotomy k.data ke.data with h3 | h3 | h3
        · exact absurd h3 h2
        · exact absurd (String.ext h3) h1
        · exact h3
      rcases (pushBack_keys rest k v a.1).1 (List.mem_map_of_mem _ ha) with h4 | h4
      · rw [h4]; exact hlt
      · obtain ⟨b, hb, hb'⟩ := List.mem_map.1 h4
        rw [← hb']; exact h'.1 b hb

/-- A key below every key of the map has no entry. -/
theorem members_of_lt {α : Type} (m : List (String × List α)) (k : String)
    (h : ∀ e ∈ m, k.data < e.1.data) : members m k = [] := by
  induction m with
  | nil => rfl
  | cons e rest ih =>
    obtain ⟨ke, vs⟩ := e
    have hk : k ≠ ke := by
      intro hh
      have := h (ke, vs) (List.mem_cons_self _ _)
      rw [hh] at this
      exact lt_irrefl _ this
    simp [members, hk, ih (fun e he => h e (List.mem_cons_of_mem _ he))]

/-- The statement `m[k].push_back(v)` appends `v` to the vector of `k` and leaves
every other vector as it was. -/
theorem members_pushBack {α : Type} (m : List (String × List α)) (k : String) (v : α)
    (k' : String) (h : Ascending m) :
    members (pushBack m k v) k' = if k' = k then members m k' ++ [v] else members m k' := by
  induction m with
  | nil =>
    by_cases hk : k' = k <;> simp [pushBack, members, hk]
  | cons e rest ih =>
    obtain ⟨ke, vs⟩ := e
    have h' := List.pairwise_cons.1 h
    by_cases h1 : k = ke
    · subst h1
      by_cases hk : k' = k <;> simp [pushBack, members, hk]
    · by_cases h2 : k.data < ke.data
      · have hnil : members ((ke, vs) :: rest) k = [] := by
          apply members_of_lt
          intro e he
          rcases List.mem_cons.1 he with rfl | he
          · exact h2
          · exact lt_trans h2 (h'.1 e he)
        by_cases hk : k' = k
        · subst hk
          have hnil' : members rest k' = [] := by
            simpa [members, h1] using hnil
          simp [pushBack, h1, h2, members, hnil']
        · simp [pushBack, h1, h2, members, hk]
      · by_cases hk : k' = k
        · subst hk
          simp [pushBack, h1, h2, members, ih h'.2]
        · by_cases hke : k' = ke
          · subst hke
            simp [pushBack, h1, h2, members, hk]
          · simp [pushBack, h1, h2, members, hke, hk, ih h'.2]

/-- In a map with ascending keys the entries under `k` are the single entry that
`members` reads, or none. -/
theorem filter_key {α : Type} (m : List (String × List α)) (k : String) (h : Ascending m) :
    m.filter (fun e => decide (e.1 = k))
      = if k ∈ m.map Prod.fst then [(k, members m k)] else [] := by
  induction m with
  | nil => simp
  | cons e rest ih =>
    obtain ⟨ke, vs⟩ := e
    have h' := List.pairwise_cons.1 h
    by_cases hk : ke = k
    · subst hk
      have hnot : ke ∉ rest.map Prod.fst := by
        intro hmem
        obtain ⟨b, hb, hb'⟩ := List.mem_map.1 hmem
        have := h'.1 b hb
        rw [hb'] at this
        exact lt_irrefl _ this
      have hrest := ih h'.2
      rw [if_neg hnot] at hrest
      simp [members, hrest]
    · have hk' : k ≠ ke := fun hh => hk hh.symm
      have hrest := ih h'.2
      simp only [List.filter_cons, hk, decide_False, Bool.false_eq_true, if_false, hrest,
        List.map_cons, List.mem_cons, hk', false_or, members]

/-- Registering the groups of one object keeps the keys in ascending order. -/
theorem registerGroups_ascending {α : Type} (m : List (String × List α))
    (dict : Option Dictionary) (v : α) (h : Ascending m) :
    Ascending (registerGroups m dict v) := by
  cases dict with
  | none => exact h
  | some d =>
    simp only [registerGroups]
    induction d generalizing m with
    | nil => exact h
    | cons e d ih => exact ih _ (pushBack_ascending m e.2 v h)

/-- Registering the groups of one object adds exactly its group names as keys. -/
theorem registerGroups_keys {α : Type} (m : List (String × List α))
    (dict : Option Dictionary) (v : α) (k : String) :
    k ∈ (registerGroups m dict v).map Prod.fst
      ↔ k ∈ m.map Prod.fst ∨ k ∈ groupNames dict := by
  cases dict with
  | none => simp [registerGroups, groupNames]
  | some d =>
    simp only [registerGroups, groupNames]
    induction d generalizing m with
    | nil => simp
    | cons e d ih =>
      rw [List.foldl_cons, ih, pushBack_keys]
      simp only [List.map_cons, List.mem_cons]
      tauto

/-- Registering the groups of one object appends it to the vector of `k` once per
entry of its dictionary that names `k`. -/
theorem registerGroups_members {α : Type} (m : List (String × List α))
    (dict : Option Dictionary) (v : α) (k : String) (h : Ascending m) :
    members (registerGroups m dict v) k
      = members m k ++ List.replicate ((groupNames dict).count k) v := by
  cases dict with
  | none => simp [registerGroups, groupNames]
  | some d =>
    simp only [registerGroups, groupNames]
    induction d generalizing m with
    | nil => simp
    | cons e d ih =>
      rw [List.foldl_cons, ih _ (pushBack_ascending m e.2 v h), members_pushBack m e.2 v k h,
        List.map_cons, List.count_cons]
      by_cases hk : k = e.2
      · subst hk
        simp [List.replicate_succ]
      · have hk' : ¬ e.2 = k := fun hh => hk hh.symm
        simp [hk, hk']

/-- The map built by a population loop: ascending keys, a key for every group name
some object lists, and under each key the objects in iteration order, each once
per entry of its dictionary naming the key. -/
theorem aggregate_spec {α β : Type} (dictOf : β → Option Dictionary) (val : β → α)
    (xs : List β) (m0 : List (String × List α)) (h0 : Ascending m0) :
    Ascending (xs.foldl (fun m x => registerGroups m (dictOf x) (val x)) m0)
      ∧ (∀ k, k ∈ (xs.foldl (fun m x => registerGroups m (dictOf x) (val x)) m0).map Prod.fst
            ↔ k ∈ m0.map Prod.fst ∨ ∃ x ∈ xs, k ∈ groupNames (dictOf x))
      ∧ ∀ k, members (xs.foldl (fun m x => registerGroups m (dictOf x) (val x)) m0) k
            = members m0 k ++ xs.flatMap
                (fun x => List.replicate ((groupNames (dictOf x)).count k) (val x)) := by
  induction xs generalizing m0 with
  | nil => simp [h0]
  | cons x xs ih =>
    have h1 := registerGroups_ascending m0 (dictOf x) (val x) h0
    obtain ⟨ha, hk, hm⟩ := ih _ h1
    refine ⟨ha, ?_, ?_⟩
    · intro k
      rw [List.foldl_cons, hk k, registerGroups_keys]
      simp only [List.mem_cons, exists_eq_or_imp]
      tauto
    · intro k
      rw [List.foldl_cons, hm k, registerGroups_members _ _ _ _ h0, List.flatMap_cons,
        List.append_assoc]

/-- When every dictionary names a group at most once, the objects under a key are
those whose dictionary names it, each once. -/
theorem flatMap_replicate_count {α β : Type} (dictOf : β → Option Dictionary) (val : β → α)
    (xs : List β) (k : String) (hset : ∀ x ∈ xs, (groupNames (dictOf x)).Nodup) :
    xs.flatMap (fun x => List.replicate ((groupNames (dictOf x)).count k) (val x))
      = (xs.filter (fun x => decide (k ∈ groupNames (dictOf x)))).map val := by
  induction xs with
  | nil => rfl
  | cons x xs ih =>
    have hx := hset x (List.mem_cons_self _ _)
    rw [List.flatMap_cons, ih (fun y hy => hset y (List.mem_cons_of_mem _ hy))]
    by_cases hk : k ∈ groupNames (dictOf x)
    · simp [List.filter_cons, hk, List.count_eq_one_of_mem hx hk]
    · simp [List.filter_cons, hk, List.count_eq_zero_of_not_mem hk]

/-- Two strings with a common prefix are equal only if the rest is equal. -/
theorem append_left_cancel (p a b : String) (h : p ++ a = p ++ b) : a = b := by
  apply String.ext
  have := congrArg String.data h
  rw [String.data_append, String.data_append] at this
  exact List.append_cancel_left this

/-- The blocks written for a map with ascending keys, one per entry, whose second
line is `pre ++ key`: those naming `name` are the single block of its entry, or
none when `name` is not a key. -/
theorem filter_blocks {α : Type} (dump : String × List α → List String) (pre : String)
    (m : List (String × List α)) (name : String) (h : Ascending m)
    (hd : ∀ e, (dump e).get? 1 = some (pre ++ e.1)) :
    (m.map dump).filter (fun b => decide (b.get? 1 = some (pre ++ name)))
      = if name ∈ m.map Prod.fst then [dump (name, members m name)] else [] := by
  have hf : ((fun b : List String => decide (b.get? 1 = some (pre ++ name))) ∘ dump)
      = fun e => decide (e.1 = name) := by
    funext e
    simp only [Function.comp, hd, Option.some.injEq]
    by_cases he : e.1 = name
    · simp [he]
    · have : ¬ pre ++ e.1 = pre ++ name := fun hh => he (append_left_cancel _ _ _ hh)
      simp [he, this]
  rw [List.filter_map, hf, filter_key m name h]
  split <;> rfl

/-- The sglist of a vector of services starts with the host name and the alias of
its first service. -/
theorem sglist_cons (service : Service) (services : List Service) :
    sglist (service :: services)
      = service.host.name :: service.alias_ :: sglist services := by
  simp [sglist, List.flatMap_cons]

/-- The sglist alternates host name and alias: tokens `2i` and `2i+1` belong to the
service at position `i`. -/
theorem sglist_get (services : List Service) (i : Nat) (service : Service)
    (h : services.get? i = some service) :
    (sglist services).get? (2 * i) = some service.host.name
      ∧ (sglist services).get? (2 * i + 1) = some service.alias_ := by
  induction services generalizing i with
  | nil => simp at h
  | cons s ss ih =>
    rw [sglist_cons]
    cases i with
    | zero =>
      simp only [List.get?_cons_zero, Option.some.injEq] at h
      subst h
      exact ⟨rfl, rfl⟩
    | succ j =>
      have hj : ss.get? j = some service := by simpa using h
      have := ih j hj
      have e1 : 2 * (j + 1) = (2 * j + 1) + 1 := by omega
      rw [e1]
      simpa using this

/-- The sglist has two tokens per service. -/
theorem sglist_length (services : List Service) :
    (sglist services).length = 2 * services.length := by
  induction services with
  | nil => rfl
  | cons s ss ih => rw [sglist_cons]; simp [ih]; omega

/-! ## Group blocks -/

/-- C3: the define hostgroup blocks naming `name` are exactly one block if some host
lists `name` and none otherwise; the members line of that block is the
comma-joined vector stored under `name`, which holds the hosts in iteration order,
each once per dictionary entry naming the group, so that, the group names of a
host forming a set, it is the list of the names of the hosts that list `name`, in
host iteration order. -/
theorem hostgroup_blocks_exact (g : ObjectGraph) (name : String) :
    (hostgroupBlocks g).filter
        (fun b => decide (b.get? 1 = some ("\thostgroup_name\t" ++ name)))
      = (if ∃ h ∈ g.hosts, name ∈ groupNames h.groups then
          [DumpHostGroup g.hostGroup (name, members (hostgroups g.hosts) name)]
        else [])
    ∧ (DumpHostGroup g.hostGroup (name, members (hostgroups g.hosts) name)).reverse.get? 1
        = some ("\tmembers\t" ++ DumpStringList (members (hostgroups g.hosts) name))
    ∧ members (hostgroups g.hosts) name
        = g.hosts.flatMap
            (fun h => List.replicate ((groupNames h.groups).count name) h.name)
    ∧ ((∀ h ∈ g.hosts, (groupNames h.groups).Nodup) →
        members (hostgroups g.hosts) name
          = (g.hosts.filter (fun h => decide (name ∈ groupNames h.groups))).map
              Host.name) := by
  obtain ⟨ha, hk, hm⟩ := aggregate_spec Host.groups Host.name g.hosts [] List.Pairwise.nil
  have hmem : members (hostgroups g.hosts) name
      = g.hosts.flatMap
          (fun h => List.replicate ((groupNames h.groups).count name) h.name) := by
    have := hm name
    simpa [members] using this
  refine ⟨?_, ?_, hmem, ?_⟩
  · have hb := filter_blocks (DumpHostGroup g.hostGroup) "\thostgroup_name\t"
      (hostgroups g.hosts) name ha (fun e => rfl)
    have hkey : name ∈ (hostgroups g.hosts).map Prod.fst
        ↔ ∃ h ∈ g.hosts, name ∈ groupNames h.groups := by
      have := hk name
      simpa using this
    unfold hostgroupBlocks
    rw [hb]
    by_cases hex : ∃ h ∈ g.hosts, name ∈ groupNames h.groups
    · rw [if_pos hex, if_pos (hkey.2 hex)]
    · rw [if_neg hex, if_neg (fun hh => hex (hkey.1 hh))]
  · cases hg : g.hostGroup name <;> simp [DumpHostGroup, groupMetadata, hg]
  · intro hset
    rw [hmem, flatMap_replicate_count Host.groups Host.name g.hosts name hset]

/-- C3 (witness): the two sample hosts both list `linux`; `h2` is iterated first. -/
theorem hostgroup_blocks_exact_witness :
    (∀ h ∈ sampleGraph.hosts, (groupNames h.groups).Nodup)
      ∧ members (hostgroups sampleGraph.hosts) "linux" = ["h2", "h1"]
      ∧ (hostgroupBlocks sampleGraph).filter
          (fun b => decide (b.get? 1 = some ("\thostgroup_name\t" ++ "linux")))
        = [["define hostgroup \x7b", "\thostgroup_name\tlinux", "\tmembers\th2,h1", "\x7d"]] :=
  ⟨by decide,
   ((hostgroup_blocks_exact sampleGraph "linux").2.2.2 (by decide)).trans (by decide),
   (hostgroup_blocks_exact sampleGraph "linux").1.trans (by decide)⟩

/-- C4: the define servicegroup blocks naming `name` are exactly one block if some
service lists `name` and none otherwise; the members line of that block is the
comma-joined sglist of the vector stored under `name`, which holds the services in
iteration order, each once per dictionary entry naming the group, so that, the
group names of a service forming a set, it is the list of the services that list
`name`; the sglist of these `n` services has `2n` tokens, the name of the owning
host of the `i`-th at `2i` and its alias at `2i+1`. -/
theorem servicegroup_blocks_exact (g : ObjectGraph) (name : String) :
    (servicegroupBlocks g).filter
        (fun b => decide (b.get? 1 = some ("\tservicegroup_name\t" ++ name)))
      = (if ∃ s ∈ g.services, name ∈ groupNames s.groups then
          [DumpServiceGroup g.serviceGroup (name, members (servicegroups g.services) name)]
        else [])
    ∧ (DumpServiceGroup g.serviceGroup
          (name, members (servicegroups g.services) name)).reverse.get? 1
        = some ("\tmembers\t"
            ++ DumpStringList (sglist (members (servicegroups g.services) name)))
    ∧ members (servicegroups g.services) name
        = g.services.flatMap
            (fun s => List.replicate ((groupNames s.groups).count name) s)
    ∧ ((∀ s ∈ g.services, (groupNames s.groups).Nodup) →
        members (servicegroups g.services) name
          = g.services.filter (fun s => decide (name ∈ groupNames s.groups)))
    ∧ (sglist (g.services.filter (fun s => decide (name ∈ groupNames s.groups)))).length
        = 2 * (g.services.filter (fun s => decide (name ∈ groupNames s.groups))).length
    ∧ ∀ (i : Nat) (service : Service),
        (g.services.filter (fun s => decide (name ∈ groupNames s.groups))).get? i
            = some service →
          (sglist (g.services.filter
              (fun s => decide (name ∈ groupNames s.groups)))).get? (2 * i)
            = some service.host.name
          ∧ (sglist (g.services.filter
              (fun s => decide (name ∈ groupNames s.groups)))).get? (2 * i + 1)
            = some service.alias_ := by
  obtain ⟨ha, hk, hm⟩ :=
    aggregate_spec Service.groups (fun s : Service => s) g.services [] List.Pairwise.nil
  have hmem : members (servicegroups g.services) name
      = g.services.flatMap
          (fun s => List.replicate ((groupNames s.groups).count name) s) := by
    have := hm name
    simpa [members] using this
  refine ⟨?_, ?_, hmem, ?_, sglist_length _, fun i service h => sglist_get _ i service h⟩
  · have hb := filter_blocks (DumpServiceGroup g.serviceGroup) "\tservicegroup_name\t"
      (servicegroups g.services) name ha (fun e => rfl)
    have hkey : name ∈ (servicegroups g.services).map Prod.fst
        ↔ ∃ s ∈ g.services, name ∈ groupNames s.groups := by
      have := hk name
      simpa using this
    unfold servicegroupBlocks
    rw [hb]
    by_cases hex : ∃ s ∈ g.services, name ∈ groupNames s.groups
    · rw [if_pos hex, if_pos (hkey.2 hex)]
    · rw [if_neg hex, if_neg (fun hh => hex (hkey.1 hh))]
  · cases hg : g.serviceGroup name <;> simp [DumpServiceGroup, groupMetadata, hg]
  · intro hset
    rw [hmem, flatMap_replicate_count Service.groups (fun s : Service => s) g.services name
      hset]
    simp

/-- C4 (witness): both sample services list `net`, a configured service group. -/
theorem servicegroup_blocks_exact_witness :
    (∀ s ∈ sampleGraph.services, (groupNames s.groups).Nodup)
      ∧ members (servicegroups sampleGraph.services) "net" = [sampleService, sampleService2]
      ∧ (servicegroupBlocks sampleGraph).filter
          (fun b => decide (b.get? 1 = some ("\tservicegroup_name\t" ++ "net")))
        = [["define servicegroup \x7b", "\tservicegroup_name\tnet", "\talias\tNetwork",
            "\tnotes_url\tn", "\taction_url\ta", "\tmembers\th1,ping,h2,http", "\x7d"]] :=
  ⟨by decide,
   ((servicegroup_blocks_exact sampleGraph "net").2.2.2.1 (by decide)).trans (by decide),
   (servicegroup_blocks_exact sampleGraph "net").1.trans (by decide)⟩

/-- C10: a group block without a configured group object has the name line and the
members line only; with one it has alias, notes_url and action_url, in that
order, between them; the members line is the same in both cases. -/
theorem group_block_metadata (g : ObjectGraph) (name : String) (hosts : List String)
    (services : List Service) :
    (g.hostGroup name = none →
        DumpHostGroup g.hostGroup (name, hosts)
          = [ "define hostgroup \x7b", "\thostgroup_name\t" ++ name,
              "\tmembers\t" ++ DumpStringList hosts, "\x7d" ])
      ∧ (∀ hg, g.hostGroup name = some hg →
        DumpHostGroup g.hostGroup (name, hosts)
          = [ "define hostgroup \x7b", "\thostgroup_name\t" ++ name,
              "\talias\t" ++ hg.alias_, "\tnotes_url\t" ++ hg.notesUrl,
              "\taction_url\t" ++ hg.actionUrl,
              "\tmembers\t" ++ DumpStringList hosts, "\x7d" ])
      ∧ (g.serviceGroup name = none →
        DumpServiceGroup g.serviceGroup (name, services)
          = [ "define servicegroup \x7b", "\tservicegroup_name\t" ++ name,
              "\tmembers\t" ++ DumpStringList (sglist services), "\x7d" ])
      ∧ (∀ sg, g.serviceGroup name = some sg →
        DumpServiceGroup g.serviceGroup (name, services)
          = [ "define servicegroup \x7b", "\tservicegroup_name\t" ++ name,
              "\talias\t" ++ sg.alias_, "\tnotes_url\t" ++ sg.notesUrl,
              "\taction_url\t" ++ sg.actionUrl,
              "\tmembers\t" ++ DumpStringList (sglist services), "\x7d" ]) := by
  refine ⟨?_, ?_, ?_, ?_⟩
  · intro h; simp [DumpHostGroup, groupMetadata, h]
  · intro hg h; simp [DumpHostGroup, groupMetadata, h]
  · intro h; simp [DumpServiceGroup, groupMetadata, h]
  · intro sg h; simp [DumpServiceGroup, groupMetadata, h]

/-- C10 (witness): in the sample store `linux` is not a configured host group and
`net` is a configured service group. -/
theorem group_block_metadata_witness :
    sampleGraph.hostGroup "linux" = none
      ∧ DumpHostGroup sampleGraph.hostGroup ("linux", ["h2", "h1"])
          = [ "define hostgroup \x7b", "\thostgroup_name\tlinux", "\tmembers\th2,h1", "\x7d" ]
      ∧ sampleGraph.serviceGroup "net" = some ⟨"Network", "n", "a"⟩
      ∧ DumpServiceGroup sampleGraph.serviceGroup ("net", [sampleService])
          = [ "define servicegroup \x7b", "\tservicegroup_name\tnet", "\talias\tNetwork",
              "\tnotes_url\tn", "\taction_url\ta", "\tmembers\th1,ping", "\x7d" ] :=
  ⟨rfl,
   ((group_block_metadata sampleGraph "linux" ["h2", "h1"] []).1 rfl).trans (by decide),
   rfl,
   ((group_block_metadata sampleGraph "net" [] [sampleService]).2.2.2 _ rfl).trans
     (by decide)⟩

/-! ## Committing the files -/

/-- What one run leaves in the two destination files: the handler renames each temp
file whatever happened to the stream, so a destination takes over what reached
its temp file when the open succeeded, takes over a stale temp file when the
open failed, and is untouched only when the open failed and no temp file exists. -/
theorem StatusTimerHandler_files (fmtMinutes : Int → String) (env : Env) (g : ObjectGraph)
    (faults : Faults) (fs : FileSystem) :
    StatusTimerHandler fmtMinutes env g faults fs "status.dat"
        = (if faults.status.openOk then
            some (faults.status.accepted (render (statusLines fmtMinutes env g)))
          else match fs "status.dat.tmp" with
            | some stale => some stale
            | none => fs "status.dat")
      ∧ StatusTimerHandler fmtMinutes env g faults fs "objects.cache"
        = (if faults.object.openOk then
            some (faults.object.accepted (render (objectLines fmtMinutes g)))
          else match fs "objects.cache.tmp" with
            | some stale => some stale
            | none => fs "objects.cache") := by
  have e1 : ("status.dat" = "status.dat.tmp") = False := by decide
  have e2 : ("status.dat" = "objects.cache.tmp") = False := by decide
  have e3 : ("status.dat" = "objects.cache") = False := by decide
  have e4 : ("objects.cache" = "status.dat.tmp") = False := by decide
  have e5 : ("objects.cache" = "objects.cache.tmp") = False := by decide
  have e6 : ("objects.cache" = "status.dat") = False := by decide
  have e7 : ("objects.cache.tmp" = "status.dat.tmp") = False := by decide
  have e8 : ("objects.cache.tmp" = "status.dat") = False := by decide
  have e9 : ("status.dat.tmp" = "objects.cache.tmp") = False := by decide
  constructor
  · cases h1 : faults.status.openOk <;> cases h2 : faults.object.openOk <;>
      cases h3 : fs "status.dat.tmp" <;> cases h4 : fs "objects.cache.tmp" <;>
      simp [StatusTimerHandler, ofstreamOpen, ofstreamClose, rename, FileSystem.store,
        h1, h2, h3, h4, e1, e2, e3, e4, e5, e6, e7, e8, e9]
  · cases h1 : faults.status.openOk <;> cases h2 : faults.object.openOk <;>
      cases h3 : fs "status.dat.tmp" <;> cases h4 : fs "objects.cache.tmp" <;>
      simp [StatusTimerHandler, ofstreamOpen, ofstreamClose, rename, FileSystem.store,
        h1, h2, h3, h4, e1, e2, e3, e4, e5, e6, e7, e8, e9]

/-- The status document reads the environment through the clock, the start time
and the task statistics of the three windows only. -/
theorem statusLines_congr (fmtMinutes : Int → String) (env1 env2 : Env) (g : ObjectGraph)
    (hnow : env2.now = env1.now) (hstart : env2.startTime = env1.startTime)
    (h1 : env2.taskStatistics 60 = env1.taskStatistics 60)
    (h5 : env2.taskStatistics (5 * 60) = env1.taskStatistics (5 * 60))
    (h15 : env2.taskStatistics (15 * 60) = env1.taskStatistics (15 * 60)) :
    statusLines fmtMinutes env2 g = statusLines fmtMinutes env1 g := by
  have hp : statusPreamble env2 = statusPreamble env1 := by
    simp only [statusPreamble, hnow, hstart, h1, h5, h15]
  have hh : DumpHostStatus env2 = DumpHostStatus env1 := by
    funext host
    simp only [DumpHostStatus, hnow]
  have hs : DumpServiceStatus fmtMinutes env2 = DumpServiceStatus fmtMinutes env1 := by
    funext service
    simp only [DumpServiceStatus, hnow]
  simp only [statusLines, hp, hh, hs]

/-- C5 (counterexample): both temp files open, the writes fail after five
characters, and the run replaces the two committed files by the five characters
that reached the temp files. -/
theorem write_failure_counterexample :
    committedFiles "status.dat" = some "previous status"
      ∧ StatusTimerHandler sampleFmt sampleEnv emptyGraph writeFaults committedFiles
          "status.dat" = some "# Ici"
      ∧ committedFiles "objects.cache" = some "previous objects"
      ∧ StatusTimerHandler sampleFmt sampleEnv emptyGraph writeFaults committedFiles
          "objects.cache" = some "# Ici" := by
  decide

/-- C5 (amended): the handler renames each temp file whatever happened to its
stream.  When the open succeeded the destination holds what reached the temp
file, a prefix of the document; when the open failed the destination is
unchanged if no temp file exists and takes over a stale temp file otherwise. -/
theorem rename_unconditional (fmtMinutes : Int → String) (env : Env) (g : ObjectGraph)
    (faults : Faults) (fs : FileSystem) :
    (faults.status.openOk = true →
        StatusTimerHandler fmtMinutes env g faults fs "status.dat"
            = some (faults.status.accepted (render (statusLines fmtMinutes env g)))
          ∧ (faults.status.accepted (render (statusLines fmtMinutes env g))).data
              <+: (render (statusLines fmtMinutes env g)).data)
      ∧ (faults.status.openOk = false → fs "status.dat.tmp" = none →
        StatusTimerHandler fmtMinutes env g faults fs "status.dat" = fs "status.dat")
      ∧ (∀ stale, faults.status.openOk = false → fs "status.dat.tmp" = some stale →
        StatusTimerHandler fmtMinutes env g faults fs "status.dat" = some stale)
      ∧ (faults.object.openOk = true →
        StatusTimerHandler fmtMinutes env g faults fs "objects.cache"
            = some (faults.object.accepted (render (objectLines fmtMinutes g)))
          ∧ (faults.object.accepted (render (objectLines fmtMinutes g))).data
              <+: (render (objectLines fmtMinutes g)).data)
      ∧ (faults.object.openOk = false → fs "objects.cache.tmp" = none →
        StatusTimerHandler fmtMinutes env g faults fs "objects.cache" = fs "objects.cache")
      ∧ (∀ stale, faults.object.openOk = false → fs "objects.cache.tmp" = some stale →
        StatusTimerHandler fmtMinutes env g faults fs "objects.cache" = some stale) := by
  have hpre : ∀ (f : Fault) (text : String), (f.accepted text).data <+: text.data := by
    intro f text
    unfold Fault.accepted
    cases f.capacity with
    | none => exact List.prefix_refl _
    | some n => exact List.take_prefix n _
  obtain ⟨hs, ho⟩ := StatusTimerHandler_files fmtMinutes env g faults fs
  refine ⟨?_, ?_, ?_, ?_, ?_, ?_⟩
  · intro h; rw [hs, if_pos h]; exact ⟨rfl, hpre _ _⟩
  · intro h h'; rw [hs, h, h']; rfl
  · intro stale h h'; rw [hs, h, h']; rfl
  · intro h; rw [ho, if_pos h]; exact ⟨rfl, hpre _ _⟩
  · intro h h'; rw [ho, h, h']; rfl
  · intro stale h h'; rw [ho, h, h']; rfl

/-- C5 (witness): the run with failing writes on the committed sample files. -/
theorem rename_unconditional_witness :
    writeFaults.status.openOk = true
      ∧ StatusTimerHandler sampleFmt sampleEnv sampleGraph writeFaults committedFiles
          "status.dat"
        = some (writeFaults.status.accepted
            (render (statusLines sampleFmt sampleEnv sampleGraph))) :=
  ⟨rfl,
   ((rename_unconditional sampleFmt sampleEnv sampleGraph writeFaults committedFiles).1
      rfl).1⟩

/-- C6 (counterexample): two runs on the same store, the second fifteen seconds
after the first, leave different contents in status.dat. -/
theorem export_twice_counterexample :
    StatusTimerHandler sampleFmt laterEnv emptyGraph noFaults
        (StatusTimerHandler sampleFmt sampleEnv emptyGraph noFaults committedFiles)
        "status.dat"
      ≠ StatusTimerHandler sampleFmt sampleEnv emptyGraph noFaults committedFiles
        "status.dat" := by
  decide

/-- C6 (amended): two fault-free runs on an unchanged store leave the same contents
in objects.cache whatever the clock reads, and the same contents in status.dat
when both runs read the same clock value, start time and task statistics. -/
theorem export_twice (fmtMinutes : Int → String) (env1 env2 : Env) (g : ObjectGraph)
    (fs : FileSystem) :
    StatusTimerHandler fmtMinutes env2 g noFaults
        (StatusTimerHandler fmtMinutes env1 g noFaults fs) "objects.cache"
      = StatusTimerHandler fmtMinutes env1 g noFaults fs "objects.cache"
    ∧ StatusTimerHandler fmtMinutes env1 g noFaults fs "objects.cache"
      = some (render (objectLines fmtMinutes g))
    ∧ (env2.now = env1.now → env2.startTime = env1.startTime →
        env2.taskStatistics 60 = env1.taskStatistics 60 →
        env2.taskStatistics (5 * 60) = env1.taskStatistics (5 * 60) →
        env2.taskStatistics (15 * 60) = env1.taskStatistics (15 * 60) →
        StatusTimerHandler fmtMinutes env2 g noFaults
            (StatusTimerHandler fmtMinutes env1 g noFaults fs) "status.dat"
          = StatusTimerHandler fmtMinutes env1 g noFaults fs "status.dat") := by
  refine ⟨?_, ?_, ?_⟩
  · rw [(StatusTimerHandler_files fmtMinutes env2 g noFaults _).2,
      (StatusTimerHandler_files fmtMinutes env1 g noFaults fs).2]
    rfl
  · rw [(StatusTimerHandler_files fmtMinutes env1 g noFaults fs).2]
    rfl
  · intro hnow hstart h1 h5 h15
    rw [(StatusTimerHandler_files fmtMinutes env2 g noFaults _).1,
      (StatusTimerHandler_files fmtMinutes env1 g noFaults fs).1,
      statusLines_congr fmtMinutes env1 env2 g hnow hstart h1 h5 h15]
    rfl

/-- C6 (witness): two runs that read the sample clock on the sample store. -/
theorem export_twice_witness :
    sampleEnv.now = sampleEnv.now
      ∧ StatusTimerHandler sampleFmt sampleEnv sampleGraph noFaults
          (StatusTimerHandler sampleFmt sampleEnv sampleGraph noFaults committedFiles)
          "status.dat"
        = StatusTimerHandler sampleFmt sampleEnv sampleGraph noFaults committedFiles
          "status.dat" :=
  ⟨rfl,
   (export_twice sampleFmt sampleEnv sampleEnv sampleGraph committedFiles).2.2
     rfl rfl rfl rfl rfl⟩

/-! ## Host state and host definition -/

/-- C14: the `current_state` line of a hoststatus block carries the tri-state of the
host: 2 whenever the host is unreachable, whatever `IsUp()` answers, 1 when it is
reachable and not up, and 0 exactly when it is reachable and up. -/
theorem hostState_tristate (env : Env) (host : Host) :
    (DumpHostStatus env host).get? 6 = some ("\tcurrent_state=" ++ toString (hostState host))
      ∧ hostState host ∈ [(0 : Int), 1, 2]
      ∧ (host.reachable = false → hostState host = 2)
      ∧ (host.reachable = true → host.up = false → hostState host = 1)
      ∧ (hostState host = 0 ↔ host.reachable = true ∧ host.up = true) := by
  refine ⟨rfl, ?_, ?_, ?_, ?_⟩
  · cases hr : host.reachable <;> cases hu : host.up <;> simp [hostState, hr, hu]
  · intro hr; simp [hostState, hr]
  · intro hr hu; simp [hostState, hr, hu]
  · cases hr : host.reachable <;> cases hu : host.up <;> simp [hostState, hr, hu]

/-- C14 (witness): a host that is up but unreachable is written with state 2. -/
theorem hostState_tristate_witness :
    ({ sampleHost with reachable := false } : Host).reachable = false
      ∧ hostState { sampleHost with reachable := false } = 2
      ∧ (DumpHostStatus sampleEnv { sampleHost with reachable := false }).get? 6
          = some "\tcurrent_state=2" :=
  ⟨rfl,
   (hostState_tristate sampleEnv { sampleHost with reachable := false }).2.2.1 rfl,
   (hostState_tristate sampleEnv { sampleHost with reachable := false }).1.trans
     (by decide)⟩

/-- A string that starts with `p` does not start with `q` when the first `n`
characters of `p` and `q` differ and both have at least `n` characters. -/
theorem not_prefix_append_of_take_ne (n : Nat) (p s q : String)
    (hp : n ≤ p.data.length) (hq : n ≤ q.data.length)
    (h : q.data.take n ≠ p.data.take n) : ¬ q.data <+: (p ++ s).data := by
  intro hpre
  apply h
  obtain ⟨t, ht⟩ := hpre
  have h1 : ((p ++ s).data).take n = p.data.take n := by
    rw [String.data_append, List.take_append_of_le_length hp]
  rw [← h1, ← ht, List.take_append_of_le_length hq]

/-- C15: a define host block has a `parents` line if and only if the parent set of
the host is not empty; without parents it is the header, the seven fixed fields
`host_name`, `alias`, `check_interval`, `retry_interval`, `max_check_attempts`,
`active_checks_enabled`, `passive_checks_enabled` in that order, the last five
with value 1, and the closing lines; with parents the `parents` line follows
them. -/
theorem host_object_parents (host : Host) :
    ((∃ line ∈ DumpHostObject host, "\tparents\t".data <+: line.data)
        ↔ host.parents ≠ [])
      ∧ (host.parents = [] →
          DumpHostObject host
            = [ "define host \x7b",
                "\thost_name\t" ++ host.name,
                "\talias\t" ++ host.alias_,
                "\tcheck_interval\t1",
                "\tretry_interval\t1",
                "\tmax_check_attempts\t1",
                "\tactive_checks_enabled\t1",
                "\tpassive_checks_enabled\t1",
                "\t\x7d",
                "" ])
      ∧ (host.parents ≠ [] →
          DumpHostObject host
            = [ "define host \x7b",
                "\thost_name\t" ++ host.name,
                "\talias\t" ++ host.alias_,
                "\tcheck_interval\t1",
                "\tretry_interval\t1",
                "\tmax_check_attempts\t1",
                "\tactive_checks_enabled\t1",
                "\tpassive_checks_enabled\t1",
                "\tparents\t" ++ DumpStringList host.parents,
                "\t\x7d",
                "" ]) := by
  have hempty : host.parents = [] →
      DumpHostObject host
        = [ "define host \x7b", "\thost_name\t" ++ host.name, "\talias\t" ++ host.alias_,
            "\tcheck_interval\t1", "\tretry_interval\t1", "\tmax_check_attempts\t1",
            "\tactive_checks_enabled\t1", "\tpassive_checks_enabled\t1", "\t\x7d", "" ] := by
    intro h
    simp only [DumpHostObject, h, List.isEmpty_nil, Bool.not_true, Bool.false_eq_true,
      if_false, List.append_nil, List.cons_append, List.nil_append]
    rfl
  have hsome : host.parents ≠ [] →
      DumpHostObject host
        = [ "define host \x7b", "\thost_name\t" ++ host.name, "\talias\t" ++ host.alias_,
            "\tcheck_interval\t1", "\tretry_interval\t1", "\tmax_check_attempts\t1",
            "\tactive_checks_enabled\t1", "\tpassive_checks_enabled\t1",
            "\tparents\t" ++ DumpStringList host.parents, "\t\x7d", "" ] := by
    intro h
    have he : host.parents.isEmpty = false := by
      cases hp : host.parents with
      | nil => exact absurd hp h
      | cons a l => rfl
    simp only [DumpHostObject, he, Bool.not_false, if_true, List.cons_append,
      List.nil_append]
    rfl
  refine ⟨?_, hempty, hsome⟩
  constructor
  · rintro ⟨line, hmem, hpre⟩ hnil
    rw [hempty hnil] at hmem
    simp only [List.mem_cons, List.mem_singleton, List.not_mem_nil, or_false] at hmem
    rcases hmem with h | h | h | h | h | h | h | h | h | h
    · subst h; revert hpre; decide
    · subst h
      exact not_prefix_append_of_take_ne 2 _ _ _ (by decide) (by decide) (by decide) hpre
    · subst h
      exact not_prefix_append_of_take_ne 2 _ _ _ (by decide) (by decide) (by decide) hpre
    · subst h; revert hpre; decide
    · subst h; revert hpre; decide
    · subst h; revert hpre; decide
    · subst h; revert hpre; decide
    · subst h; revert hpre; decide
    · subst h; revert hpre; decide
    · subst h; revert hpre; decide
  · intro h
    refine ⟨"\tparents\t" ++ DumpStringList host.parents, ?_, ?_⟩
    · rw [hsome h]; simp
    · rw [String.data_append]; exact List.prefix_append _ _

/-- C15 (witness): the first sample host has no parents, the second has one. -/
theorem host_object_parents_witness :
    sampleHost.parents = []
      ∧ DumpHostObject sampleHost
          = [ "define host \x7b", "\thost_name\th1", "\talias\th1", "\tcheck_interval\t1",
              "\tretry_interval\t1", "\tmax_check_attempts\t1",
              "\tactive_checks_enabled\t1", "\tpassive_checks_enabled\t1", "\t\x7d", "" ]
      ∧ sampleHost2.parents ≠ []
      ∧ (DumpHostObject sampleHost2).get? 8 = some "\tparents\th1" :=
  ⟨rfl,
   ((host_object_parents sampleHost).2.1 rfl).trans (by decide),
   by decide,
   by rw [(host_object_parents sampleHost2).2.2 (by decide)]; decide⟩

/-! ## Reachable services -/

/-- C16: for a reachable service `plugin_output` is the output of the check result,
empty when the service was never checked, and `current_state` is the smaller of
the stored state and UNKNOWN, so that a stored OK, WARNING, CRITICAL or UNKNOWN
is written as it is. -/
theorem reachable_service_untouched (fmtMinutes : Int → String) (env : Env)
    (service : Service) (h : service.reachable = true) :
    (DumpServiceStatus fmtMinutes env service).get? 11
        = some ("\tplugin_output=" ++
            (match service.lastCheckResult with
              | some cr => cr.output
              | none => ""))
      ∧ (DumpServiceStatus fmtMinutes env service).get? 9
        = some ("\tcurrent_state=" ++ toString (min service.state StateUnknown))
      ∧ (service.state ∈ [StateOK, StateWarning, StateCritical, StateUnknown] →
          (DumpServiceStatus fmtMinutes env service).get? 9
            = some ("\tcurrent_state=" ++ toString service.state)) := by
  have ho : serviceOutput service
      = (match service.lastCheckResult with
          | some cr => cr.output
          | none => "") := by
    cases hc : service.lastCheckResult <;> simp [serviceOutput, checkLocals, h, hc]
  have hs : serviceState service = min service.state StateUnknown := by
    simp only [serviceState, h, Bool.not_true, Bool.false_eq_true, if_false, StateUnknown]
    split <;> omega
  refine ⟨?_, ?_, ?_⟩
  · show some ("\tplugin_output=" ++ serviceOutput service) = _
    rw [ho]
  · show some ("\tcurrent_state=" ++ toString (serviceState service)) = _
    rw [hs]
  · intro hmem
    show some ("\tcurrent_state=" ++ toString (serviceState service)) = _
    have : min service.state StateUnknown = service.state := by
      simp only [StateOK, StateWarning, StateCritical, StateUnknown, List.mem_cons,
        List.mem_singleton, List.not_mem_nil, or_false] at hmem ⊢
      omega
    rw [hs, this]

/-- C16 (witness): the reachable, never checked sample service in state CRITICAL. -/
theorem reachable_service_untouched_witness :
    sampleService.reachable = true
      ∧ (DumpServiceStatus sampleFmt sampleEnv sampleService).get? 11
          = some "\tplugin_output="
      ∧ (DumpServiceStatus sampleFmt sampleEnv sampleService).get? 9
          = some "\tcurrent_state=2" :=
  ⟨rfl,
   (reachable_service_untouched sampleFmt sampleEnv sampleService rfl).1.trans (by decide),
   (reachable_service_untouched sampleFmt sampleEnv sampleService rfl).2.1.trans
     (by decide)⟩

/-! ## Blocks per object -/

/-- When every block holds the line `a` exactly `c` times, the blocks of a
population hold it `c` times per object. -/
theorem count_flatMap_const {β : Type} (f : β → List String) (a : String) (c : Nat)
    (xs : List β) (h : ∀ x, (f x).count a = c) :
    (xs.flatMap f).count a = c * xs.length := by
  induction xs with
  | nil => simp
  | cons x xs ih =>
    rw [List.flatMap_cons, List.count_append, h x, ih, List.length_cons]
    ring

/-- The header lines of the four object blocks do not occur in a define hostgroup
block. -/
theorem DumpHostGroup_headers (hostGroup : String → Option Group)
    (hgt : String × List String) :
    (DumpHostGroup hostGroup hgt).count "define host \x7b" = 0
      ∧ (DumpHostGroup hostGroup hgt).count "define service \x7b" = 0 := by
  cases h : hostGroup hgt.1 <;> simp only [DumpHostGroup, h, groupMetadata] <;>
    exact ⟨rfl, rfl⟩

/-- The header lines of the four object blocks do not occur in a define
servicegroup block. -/
theorem DumpServiceGroup_headers (serviceGroup : String → Option Group)
    (sgt : String × List Service) :
    (DumpServiceGroup serviceGroup sgt).count "define host \x7b" = 0
      ∧ (DumpServiceGroup serviceGroup sgt).count "define service \x7b" = 0 := by
  cases h : serviceGroup sgt.1 <;> simp only [DumpServiceGroup, h, groupMetadata] <;>
    exact ⟨rfl, rfl⟩

/-- A define host block holds its header line once and no define service header. -/
theorem DumpHostObject_headers (host : Host) :
    (DumpHostObject host).count "define host \x7b" = 1
      ∧ (DumpHostObject host).count "define service \x7b" = 0 := by
  unfold DumpHostObject
  cases host.parents.isEmpty <;> exact ⟨rfl, rfl⟩

/-- C13: status.dat holds the preamble, then one hoststatus block per host in
iteration order, then one servicestatus block per service in iteration order;
objects.cache holds the header, one define host block per host, the hostgroup
blocks, one define service block per service, and the servicegroup blocks, in
that order.  The header line of each of the four kinds of block occurs as often
as there are hosts, respectively services, and a run without faults leaves these
two documents in the two files. -/
theorem blocks_per_object (fmtMinutes : Int → String) (env : Env) (g : ObjectGraph)
    (fs : FileSystem) :
    statusLines fmtMinutes env g
        = statusPreamble env
          ++ (g.hosts.map (DumpHostStatus env)).flatten
          ++ (g.services.map (DumpServiceStatus fmtMinutes env)).flatten
      ∧ objectLines fmtMinutes g
        = objectPreamble
          ++ (g.hosts.map DumpHostObject).flatten
          ++ (hostgroupBlocks g).flatten
          ++ (g.services.map (DumpServiceObject fmtMinutes)).flatten
          ++ (servicegroupBlocks g).flatten
      ∧ (statusLines fmtMinutes env g).count "hoststatus \x7b" = g.hosts.length
      ∧ (statusLines fmtMinutes env g).count "servicestatus \x7b" = g.services.length
      ∧ (objectLines fmtMinutes g).count "define host \x7b" = g.hosts.length
      ∧ (objectLines fmtMinutes g).count "define service \x7b" = g.services.length
      ∧ StatusTimerHandler fmtMinutes env g noFaults fs "status.dat"
          = some (render (statusLines fmtMinutes env g))
      ∧ StatusTimerHandler fmtMinutes env g noFaults fs "objects.cache"
          = some (render (objectLines fmtMinutes g)) := by
  have hfiles := StatusTimerHandler_files fmtMinutes env g noFaults fs
  refine ⟨rfl, rfl, ?_, ?_, ?_, ?_, hfiles.1.trans rfl, hfiles.2.trans rfl⟩
  · simp only [statusLines, List.count_append]
    rw [count_flatMap_const (DumpHostStatus env) "hoststatus \x7b" 1 g.hosts (fun _ => rfl),
      count_flatMap_const (DumpServiceStatus fmtMinutes env) "hoststatus \x7b" 0 g.services
        (fun _ => rfl)]
    have : (statusPreamble env).count "hoststatus \x7b" = 0 := rfl
    rw [this]; omega
  · simp only [statusLines, List.count_append]
    rw [count_flatMap_const (DumpHostStatus env) "servicestatus \x7b" 0 g.hosts
        (fun _ => rfl),
      count_flatMap_const (DumpServiceStatus fmtMinutes env) "servicestatus \x7b" 1
        g.services (fun _ => rfl)]
    have : (statusPreamble env).count "servicestatus \x7b" = 0 := rfl
    rw [this]; omega
  · have h1 : (hostgroupBlocks g).flatten.count "define host \x7b" = 0 * _ :=
      count_flatMap_const (DumpHostGroup g.hostGroup) _ 0 (hostgroups g.hosts)
        (fun e => (DumpHostGroup_headers g.hostGroup e).1)
    have h2 : (servicegroupBlocks g).flatten.count "define host \x7b" = 0 * _ :=
      count_flatMap_const (DumpServiceGroup g.serviceGroup) _ 0 (servicegroups g.services)
        (fun e => (DumpServiceGroup_headers g.serviceGroup e).1)
    simp only [objectLines, List.count_append]
    rw [count_flatMap_const DumpHostObject "define host \x7b" 1 g.hosts
        (fun h => (DumpHostObject_headers h).1),
      count_flatMap_const (DumpServiceObject fmtMinutes) "define host \x7b" 0 g.services
        (fun _ => rfl),
      h1, h2]
    have : objectPreamble.count "define host \x7b" = 0 := rfl
    rw [this]; omega
  · have h1 : (hostgroupBlocks g).flatten.count "define service \x7b" = 0 * _ :=
      count_flatMap_const (DumpHostGroup g.hostGroup) _ 0 (hostgroups g.hosts)
        (fun e => (DumpHostGroup_headers g.hostGroup e).2)
    have h2 : (servicegroupBlocks g).flatten.count "define service \x7b" = 0 * _ :=
      count_flatMap_const (DumpServiceGroup g.serviceGroup) _ 0 (servicegroups g.services)
        (fun e => (DumpServiceGroup_headers g.serviceGroup e).2)
    simp only [objectLines, List.count_append]
    rw [count_flatMap_const DumpHostObject "define service \x7b" 0 g.hosts
        (fun h => (DumpHostObject_headers h).2),
      count_flatMap_const (DumpServiceObject fmtMinutes) "define service \x7b" 1 g.services
        (fun _ => rfl),
      h1, h2]
    have : objectPreamble.count "define service \x7b" = 0 := rfl
    rw [this]; omega

/-! ## Order of the group blocks -/

/-- The keys of a map with ascending entries are strictly ascending. -/
theorem keys_pairwise {α : Type} (m : List (String × List α)) (h : Ascending m) :
    (m.map Prod.fst).Pairwise (fun a b => a.data < b.data) :=
  List.pairwise_map.2 h

/-- Two strictly ascending lists of names with the same elements are equal. -/
theorem ascending_unique (l₁ l₂ : List String)
    (h₁ : l₁.Pairwise (fun a b => a.data < b.data))
    (h₂ : l₂.Pairwise (fun a b => a.data < b.data))
    (hmem : ∀ k, k ∈ l₁ ↔ k ∈ l₂) : l₁ = l₂ := by
  have s₁ : (l₁.map String.data).Sorted (· < ·) := List.pairwise_map.2 h₁
  have s₂ : (l₂.map String.data).Sorted (· < ·) := List.pairwise_map.2 h₂
  have hinj : Function.Injective String.data := fun a b hab => String.ext hab
  have hperm : (l₁.map String.data).Perm (l₂.map String.data) := by
    refine (List.perm_ext_iff_of_nodup s₁.nodup s₂.nodup).2 ?_
    intro d
    simp only [List.mem_map]
    constructor
    · rintro ⟨k, hk, rfl⟩; exact ⟨k, (hmem k).1 hk, rfl⟩
    · rintro ⟨k, hk, rfl⟩; exact ⟨k, (hmem k).2 hk, rfl⟩
  exact (List.map_injective_iff.2 hinj) (List.eq_of_perm_of_sorted hperm s₁ s₂)

/-- The key sequence of the map built by a population loop: strictly ascending,
and the same for two populations that list the same group names. -/
theorem aggregate_keys {α β : Type} (dictOf : β → Option Dictionary) (val : β → α)
    (xs ys : List β)
    (hsame : ∀ k, (∃ x ∈ xs, k ∈ groupNames (dictOf x))
      ↔ (∃ y ∈ ys, k ∈ groupNames (dictOf y))) :
    ((xs.foldl (fun m x => registerGroups m (dictOf x) (val x)) []).map Prod.fst).Pairwise
        (fun a b => a.data < b.data)
      ∧ (xs.foldl (fun m x => registerGroups m (dictOf x) (val x)) []).map Prod.fst
        = (ys.foldl (fun m x => registerGroups m (dictOf x) (val x)) []).map Prod.fst := by
  obtain ⟨hax, hkx, _⟩ := aggregate_spec dictOf val xs [] List.Pairwise.nil
  obtain ⟨hay, hky, _⟩ := aggregate_spec dictOf val ys [] List.Pairwise.nil
  refine ⟨keys_pairwise _ hax, ?_⟩
  apply ascending_unique _ _ (keys_pairwise _ hax) (keys_pairwise _ hay)
  intro k
  rw [hkx k, hky k]
  simp only [List.map_nil, List.not_mem_nil, false_or]
  exact hsame k

/-- The members under a key for two populations that are permutations of each
other are permutations of each other. -/
theorem aggregate_members_perm {α β : Type} (dictOf : β → Option Dictionary) (val : β → α)
    (xs ys : List β) (hperm : xs.Perm ys) (k : String) :
    (members (xs.foldl (fun m x => registerGroups m (dictOf x) (val x)) []) k).Perm
      (members (ys.foldl (fun m x => registerGroups m (dictOf x) (val x)) []) k) := by
  obtain ⟨_, _, hmx⟩ := aggregate_spec dictOf val xs [] List.Pairwise.nil
  obtain ⟨_, _, hmy⟩ := aggregate_spec dictOf val ys [] List.Pairwise.nil
  rw [hmx k, hmy k]
  simp only [members, List.nil_append]
  exact hperm.flatMap_right _

/-- C17: the define hostgroup blocks, and likewise the define servicegroup blocks,
are written in strictly ascending lexicographic order of the group name, no name
twice; the sequence of names is the same for every population that lists the same
group names, whatever the iteration order and the order inside the dictionaries,
and permuting the population only permutes the members under each name. -/
theorem group_blocks_ascending (g : ObjectGraph) :
    ((hostgroups g.hosts).map Prod.fst).Pairwise (fun a b => a < b)
      ∧ ((hostgroups g.hosts).map Prod.fst).Nodup
      ∧ (hostgroupBlocks g).map (fun b => b.get? 1)
          = ((hostgroups g.hosts).map Prod.fst).map
              (fun name => some ("\thostgroup_name\t" ++ name))
      ∧ (∀ hosts' : List Host,
          (∀ name, (∃ h ∈ g.hosts, name ∈ groupNames h.groups)
            ↔ (∃ h ∈ hosts', name ∈ groupNames h.groups)) →
          (hostgroups g.hosts).map Prod.fst = (hostgroups hosts').map Prod.fst)
      ∧ (∀ hosts' : List Host, g.hosts.Perm hosts' →
          (hostgroups g.hosts).map Prod.fst = (hostgroups hosts').map Prod.fst
            ∧ ∀ name, (members (hostgroups g.hosts) name).Perm
                (members (hostgroups hosts') name))
      ∧ ((servicegroups g.services).map Prod.fst).Pairwise (fun a b => a < b)
      ∧ ((servicegroups g.services).map Prod.fst).Nodup
      ∧ (servicegroupBlocks g).map (fun b => b.get? 1)
          = ((servicegroups g.services).map Prod.fst).map
              (fun name => some ("\tservicegroup_name\t" ++ name))
      ∧ (∀ services' : List Service,
          (∀ name, (∃ s ∈ g.services, name ∈ groupNames s.groups)
            ↔ (∃ s ∈ services', name ∈ groupNames s.groups)) →
          (servicegroups g.services).map Prod.fst = (servicegroups services').map Prod.fst)
      ∧ (∀ services' : List Service, g.services.Perm services' →
          (servicegroups g.services).map Prod.fst = (servicegroups services').map Prod.fst
            ∧ ∀ name, (members (servicegroups g.services) name).Perm
                (members (servicegroups services') name)) := by
  have hlt : ∀ l : List String, l.Pairwise (fun a b => a.data < b.data) →
      l.Pairwise (fun a b => a < b) := by
    intro l hl
    exact hl.imp (fun {a b} hab => String.lt_iff_toList_lt.2 hab)
  have hnodup : ∀ l : List String, l.Pairwise (fun a b => a.data < b.data) → l.Nodup := by
    intro l hl
    exact hl.imp (fun {a b} hab heq => by rw [heq] at hab; exact lt_irrefl _ hab)
  have hperm_same : ∀ {β : Type} (dictOf : β → Option Dictionary) (xs ys : List β),
      xs.Perm ys → ∀ name, (∃ x ∈ xs, name ∈ groupNames (dictOf x))
        ↔ (∃ y ∈ ys, name ∈ groupNames (dictOf y)) := by
    intro β dictOf xs ys hp name
    constructor
    · rintro ⟨x, hx, hn⟩; exact ⟨x, hp.mem_iff.1 hx, hn⟩
    · rintro ⟨x, hx, hn⟩; exact ⟨x, hp.mem_iff.2 hx, hn⟩
  have hH := fun hosts' hs => aggregate_keys Host.groups Host.name g.hosts hosts' hs
  have hS := fun services' hs =>
    aggregate_keys Service.groups (fun s : Service => s) g.services services' hs
  have hH0 := (hH g.hosts (fun _ => Iff.rfl)).1
  have hS0 := (hS g.services (fun _ => Iff.rfl)).1
  refine ⟨hlt _ hH0, hnodup _ hH0, ?_, fun hosts' hs => (hH hosts' hs).2, ?_,
    hlt _ hS0, hnodup _ hS0, ?_, fun services' hs => (hS services' hs).2, ?_⟩
  · simp only [hostgroupBlocks, List.map_map]
    rfl
  · intro hosts' hp
    exact ⟨(hH hosts' (hperm_same Host.groups _ _ hp)).2,
      fun name => aggregate_members_perm Host.groups Host.name _ _ hp name⟩
  · simp only [servicegroupBlocks, List.map_map]
    rfl
  · intro services' hp
    exact ⟨(hS services' (hperm_same Service.groups _ _ hp)).2,
      fun name => aggregate_members_perm Service.groups (fun s : Service => s) _ _ hp name⟩

/-- C17 (witness): the sample hosts in both iteration orders give the group names
`linux`, `web`, with the members of `linux` in the respective iteration order. -/
theorem group_blocks_ascending_witness :
    sampleGraph.hosts.Perm [sampleHost, sampleHost2]
      ∧ (hostgroups sampleGraph.hosts).map Prod.fst = ["linux", "web"]
      ∧ (hostgroups [sampleHost, sampleHost2]).map Prod.fst = ["linux", "web"]
      ∧ members (hostgroups sampleGraph.hosts) "linux" = ["h2", "h1"]
      ∧ members (hostgroups [sampleHost, sampleHost2]) "linux" = ["h1", "h2"] :=
  ⟨List.Perm.swap _ _ _,
   by decide,
   ((group_blocks_ascending sampleGraph).2.2.2.2.1 [sampleHost, sampleHost2]
      (List.Perm.swap _ _ _)).1.symm.trans (by decide),
   by decide,
   by decide⟩

/-! ## Interval fields -/

/-- Rounding an exact quotient gives the quotient. -/
theorem roundHalfEven_mul (c b : Nat) (hb : 0 < b) : roundHalfEven (c * b) b = c := by
  simp [roundHalfEven, Nat.mul_mod_left, hb, Nat.mul_div_cancel c hb]

/-- A quotient that is a natural number below `2 ^ 53` is a double. -/
theorem nearestDouble_mul (c b : Nat) (hb : 0 < b) (hc : 0 < c) (hlt : c < 2 ^ 53) :
    ∃ k, nearestDouble (c * b) b = (c * 2 ^ k, 2 ^ k) := by
  have ha : c * b ≠ 0 := Nat.mul_ne_zero (Nat.pos_iff_ne_zero.1 hc) (Nat.pos_iff_ne_zero.1 hb)
  have hlt' : c * b < b * 2 ^ 53 := by
    rw [Nat.mul_comm c b]
    exact Nat.mul_lt_mul_of_pos_left hlt hb
  refine ⟨scaleUp (c * b) b (53 + b) 0, ?_⟩
  simp only [nearestDouble, if_neg ha, if_pos hlt']
  have : c * b * 2 ^ scaleUp (c * b) b (53 + b) 0
      = (c * 2 ^ scaleUp (c * b) b (53 + b) 0) * b := by ring
  rw [this, roundHalfEven_mul _ b hb]

/-- The decimal exponent found by `decExpUp` brackets the fraction. -/
theorem decExpUp_spec (p q : Nat) (fuel x : Nat) (h0 : q * 10 ^ x ≤ p)
    (hfuel : p < q * 10 ^ (x + fuel)) :
    q * 10 ^ decExpUp p q fuel x ≤ p ∧ p < q * 10 ^ (decExpUp p q fuel x + 1) := by
  induction fuel generalizing x with
  | zero => exact absurd h0 (Nat.not_le.2 hfuel)
  | succ fuel ih =>
    unfold decExpUp
    split_ifs with h
    · exact ih (x + 1) h (by rw [Nat.add_assoc, Nat.add_comm 1 fuel]; exact hfuel)
    · exact ⟨h0, Nat.not_le.1 h⟩

/-- The digits of zero are zeros. -/
theorem fracDigits_zero (k : Nat) : fracDigits 0 k = List.replicate k '0' := by
  induction k with
  | zero => rfl
  | succ k ih =>
    simp only [fracDigits, Nat.zero_div, Nat.zero_mod, ih, List.replicate_succ]
    rfl

/-- A fraction of zeros is not written. -/
theorem fractionText_zeros (k : Nat) : fractionText (List.replicate k '0') = "" := by
  have h : ∀ n, (List.replicate n '0').dropWhile (fun c => c == '0') = [] := by
    intro n
    induction n with
    | zero => rfl
    | succ n ih => simp [List.replicate_succ, List.dropWhile_cons, ih]
  simp [fractionText, stripZeros, List.reverse_replicate, h]

/-- A positive natural number below a million, held as a fraction with any
positive denominator, is written by `%g` as its decimal numeral. -/
theorem formatG6_nat (c m : Nat) (hm : 0 < m) (hc : 0 < c) (hlt : c < 10 ^ 6) :
    formatG6 (c * m) m = toString c := by
  have hp : c * m ≠ 0 := Nat.mul_ne_zero (Nat.pos_iff_ne_zero.1 hc) (Nat.pos_iff_ne_zero.1 hm)
  have hle : m ≤ c * m := Nat.le_mul_of_pos_left m hc
  have hfuel : c * m < m * 10 ^ (0 + c * m) := by
    rw [Nat.zero_add]
    calc c * m < 10 ^ (c * m) := Nat.lt_pow_self (by decide) _
      _ ≤ m * 10 ^ (c * m) := Nat.le_mul_of_pos_left _ hm
  obtain ⟨hx1, hx2⟩ := decExpUp_spec (c * m) m (c * m) 0 (by simpa using hle) hfuel
  generalize hxe : decExpUp (c * m) m (c * m) 0 = x at hx1 hx2
  have h1 : 10 ^ x ≤ c := by
    rw [Nat.mul_comm c m] at hx1
    exact Nat.le_of_mul_le_mul_left hx1 hm
  have h2 : c < 10 ^ (x + 1) := by
    rw [Nat.mul_comm c m] at hx2
    exact Nat.lt_of_mul_lt_mul_left hx2
  have hx5 : x ≤ 5 := by
    by_contra hcon
    have : 10 ^ 6 ≤ 10 ^ x := Nat.pow_le_pow_right (by decide) (by omega)
    omega
  have hd : roundHalfEven (c * m * 10 ^ (5 - x)) m = c * 10 ^ (5 - x) := by
    have : c * m * 10 ^ (5 - x) = (c * 10 ^ (5 - x)) * m := by ring
    rw [this, roundHalfEven_mul _ m hm]
  have hdlt : c * 10 ^ (5 - x) < 10 ^ 6 := by
    calc c * 10 ^ (5 - x) < 10 ^ (x + 1) * 10 ^ (5 - x) :=
          Nat.mul_lt_mul_of_pos_right h2 (pow_pos (by decide) _)
      _ = 10 ^ 6 := by rw [← Nat.pow_add]; congr 1; omega
  have hsix : sixDigits (c * m) m = (c * 10 ^ (5 - x), (x : Int)) := by
    simp only [sixDigits, if_pos hle, hxe, if_pos hx5, hd, if_neg (Nat.ne_of_lt hdlt)]
  have hrange : -4 ≤ (x : Int) ∧ (x : Int) < 6 := by omega
  have hdec : (5 - (x : Int)).toNat = 5 - x := by omega
  have hpos : 0 < 10 ^ (5 - x) := pow_pos (by decide) _
  simp only [formatG6, if_neg hp, hsix, if_pos hrange, fixedText, hdec,
    Nat.mul_div_cancel c hpos, Nat.mul_mod_left, fracDigits_zero, fractionText_zeros]
  exact String.append_empty _

/-- The text written for a whole number of minutes below a million is the decimal
numeral of that number. -/
theorem formatMinutes_whole (q : Nat) (hq : q < 10 ^ 6) :
    formatMinutes (60 * (q : Int)) = toString q := by
  have habs : (60 * (q : Int)).natAbs = 60 * q := by omega
  have hneg : ¬ (60 * (q : Int) < 0) := by omega
  rcases Nat.eq_zero_or_pos q with h0 | hpos
  · subst h0
    rfl
  · have h60 : 0 < 60 * q := by omega
    have hlt53 : 60 * q < 2 ^ 53 := by
      have : (10 : Nat) ^ 6 * 60 < 2 ^ 53 := by decide
      omega
    obtain ⟨k, hk⟩ := nearestDouble_mul (60 * q) 1 (by decide) h60 hlt53
    rw [Nat.mul_one] at hk
    have hb : 0 < 60 * 2 ^ k := Nat.mul_pos (by decide) (pow_pos (by decide) _)
    have hq53 : q < 2 ^ 53 := by omega
    obtain ⟨j, hj⟩ := nearestDouble_mul q (60 * 2 ^ k) hb hpos hq53
    have he : 60 * q * 2 ^ k = q * (60 * 2 ^ k) := by ring
    simp only [formatMinutes, habs, hk, he, hj, if_neg hneg]
    rw [formatG6_nat q (2 ^ j) (pow_pos (by decide) _) hpos hq]
    exact String.empty_append _

/-- C11 (counterexample): a check interval of 100 seconds is written as 1.66667 in
both blocks, the decimal 166667/100000, which is not the quotient 100/60. -/
theorem interval_not_exact_counterexample :
    (DumpServiceStatus formatMinutes sampleEnv oddService).get? 3
        = some "\tcheck_interval=1.66667"
      ∧ (DumpServiceObject formatMinutes oddService).get? 4
        = some "\tcheck_interval\t1.66667"
      ∧ oddService.checkInterval = 100
      ∧ (166667 : ℚ) / 100000 ≠ 100 / 60 := by
  refine ⟨by decide, by decide, rfl, by norm_num⟩

/-- C11 (amended): both blocks of a service write, for `check_interval` and for
`retry_interval`, the text of the double `seconds / 60.0` at six significant
digits; for an interval of `60 * q` seconds with `q` below a million this is the
decimal numeral of `q`, so that 300 seconds are written 5 and 60 seconds 1. -/
theorem interval_fields (env : Env) (service : Service) :
    (DumpServiceStatus formatMinutes env service).get? 3
        = some ("\tcheck_interval=" ++ formatMinutes service.checkInterval)
      ∧ (DumpServiceStatus formatMinutes env service).get? 4
        = some ("\tretry_interval=" ++ formatMinutes service.retryInterval)
      ∧ (DumpServiceObject formatMinutes service).get? 4
        = some ("\tcheck_interval\t" ++ formatMinutes service.checkInterval)
      ∧ (DumpServiceObject formatMinutes service).get? 5
        = some ("\tretry_interval\t" ++ formatMinutes service.retryInterval)
      ∧ (∀ q : Nat, q < 10 ^ 6 → service.checkInterval = 60 * (q : Int) →
          formatMinutes service.checkInterval = toString q)
      ∧ (∀ q : Nat, q < 10 ^ 6 → service.retryInterval = 60 * (q : Int) →
          formatMinutes service.retryInterval = toString q)
      ∧ formatMinutes 300 = "5"
      ∧ formatMinutes 60 = "1" := by
  refine ⟨rfl, rfl, rfl, rfl, ?_, ?_, ?_, ?_⟩
  · intro q hq h; rw [h]; exact formatMinutes_whole q hq
  · intro q hq h; rw [h]; exact formatMinutes_whole q hq
  · exact (formatMinutes_whole 5 (by decide)).trans rfl
  · exact (formatMinutes_whole 1 (by decide)).trans rfl

/-- C11 (witness): the sample service is checked every 300 seconds and retried
every 60 seconds. -/
theorem interval_fields_witness :
    sampleService.checkInterval = 60 * ((5 : Nat) : Int)
      ∧ sampleService.retryInterval = 60 * ((1 : Nat) : Int)
      ∧ (DumpServiceStatus formatMinutes sampleEnv sampleService).get? 3
          = some "\tcheck_interval=5"
      ∧ (DumpServiceObject formatMinutes sampleService).get? 5
          = some "\tretry_interval\t1" :=
  ⟨rfl, rfl,
   by
    rw [(interval_fields sampleEnv sampleService).1,
      (interval_fields sampleEnv sampleService).2.2.2.2.1 5 (by decide) rfl]
    rfl,
   by
    rw [(interval_fields sampleEnv sampleService).2.2.2.1,
      (interval_fields sampleEnv sampleService).2.2.2.2.2.1 1 (by decide) rfl]
    rfl⟩

/-! ## Separation of the blocks -/

/-- C12 (the code at the failing input): a group block ends with a brace that is not
tab-indented and holds no blank line, while a define host block ends with a
tab-indented brace and a blank line; for the sample store, which has two host
groups and two service groups, the group blocks follow each other with no blank
line in between. -/
theorem group_blocks_not_separated :
    (∀ (hostGroup : String → Option Group) (hgt : String × List String),
        (DumpHostGroup hostGroup hgt).getLast? = some "\x7d"
          ∧ (DumpHostGroup hostGroup hgt).count "" = 0)
      ∧ (∀ (serviceGroup : String → Option Group) (sgt : String × List Service),
        (DumpServiceGroup serviceGroup sgt).getLast? = some "\x7d"
          ∧ (DumpServiceGroup serviceGroup sgt).count "" = 0)
      ∧ tabIndented "\x7d" = false
      ∧ (∀ host : Host, (DumpHostObject host).reverse.take 2 = ["", "\t\x7d"])
      ∧ (hostgroupBlocks sampleGraph).flatten
          = [ "define hostgroup \x7b", "\thostgroup_name\tlinux", "\tmembers\th2,h1", "\x7d",
              "define hostgroup \x7b", "\thostgroup_name\tweb", "\tmembers\th2", "\x7d" ]
      ∧ (servicegroupBlocks sampleGraph).flatten
          = [ "define servicegroup \x7b", "\tservicegroup_name\tnet", "\talias\tNetwork",
              "\tnotes_url\tn", "\taction_url\ta", "\tmembers\th1,ping,h2,http", "\x7d",
              "define servicegroup \x7b", "\tservicegroup_name\tweb", "\tmembers\th2,http",
              "\x7d" ] := by
  refine ⟨?_, ?_, rfl, ?_, by decide, by decide⟩
  · intro hostGroup hgt
    cases h : hostGroup hgt.1 <;> simp only [DumpHostGroup, h, groupMetadata] <;>
      exact ⟨rfl, rfl⟩
  · intro serviceGroup sgt
    cases h : serviceGroup sgt.1 <;> simp only [DumpServiceGroup, h, groupMetadata] <;>
      exact ⟨rfl, rfl⟩
  · intro host
    unfold DumpHostObject
    cases host.parents.isEmpty <;> rfl

end Compat
